import Mathlib

/-!
# Verification of the nove body-measurement fitting pipeline

Shallow embedding of the measurement / fitting code of the `renaise/nove`
repository, and proofs of the specification claims about it.

Numeric conventions: code working over Python floats is embedded over `ℚ`
where only field arithmetic and comparisons occur, and over `ℝ` where
trigonometry and square roots occur.  Rational and real division are total
(`x / 0 = 0`), the standard shallow-embedding convention.
-/

namespace Nove

open Matrix

/-!
# Verification of the nove body-measurement fitting pipeline

Shallow embedding of the measurement / fitting code of the `renaise/nove`
repository, and proofs of the specification claims about it.

Numeric conventions: code working over Python floats is embedded over `ℚ`
where only field arithmetic and comparisons occur, and over `ℝ` where
trigonometry and square roots occur.  Rational and real division are total
(`x / 0 = 0`), the standard shallow-embedding convention.
-/

/-! ## Body-type classifiers

From `src/backend/measurement/src/measurement/anthropometry.py`
(`classify_body_type`, ratio based) and
`src/backend/src/services/body_type.py` (`classify_body_type`,
inch-difference based).  Both use the same five-label taxonomy. -/

inductive BodyType where
  | hourglass
  | pear
  | apple
  | rectangle
  | invertedTriangle
  deriving DecidableEq, Repr

/-- `classify_body_type` from `measurement/anthropometry.py`: ratio based. -/
def classify_body_type (bust waist hips : ℚ) : BodyType :=
  let bust_hip_ratio := if hips > 0 then bust / hips else 1
  let waist_bust_ratio := if bust > 0 then waist / bust else 1
  if 0.9 ≤ bust_hip_ratio ∧ bust_hip_ratio ≤ 1.1 ∧ waist_bust_ratio < 0.8 then
    .hourglass
  else if bust_hip_ratio < 0.9 then
    .pear
  else if bust_hip_ratio > 1.1 then
    .invertedTriangle
  else if bust_hip_ratio > 1.0 ∧ waist_bust_ratio > 0.8 then
    .apple
  else
    .rectangle

/-- `classify_body_type` from `services/body_type.py`: inch-difference based. -/
def classify_body_type_diff (bust waist hips : ℚ) : BodyType :=
  let bust_hip_diff := |bust - hips|
  let waist_diff := min bust hips - waist
  if bust_hip_diff ≤ 1 ∧ waist_diff ≥ 9 then
    .hourglass
  else if hips > bust + 3 then
    .pear
  else if waist ≥ hips - 2 then
    .apple
  else if bust > hips + 3 then
    .invertedTriangle
  else
    .rectangle

/-- The classifier exactly as claim C2 words it: identical to
`classify_body_type` except that the Apple branch tests
`waist/bust ≥ 0.8` instead of the code's strict `> 0.8`. -/
def classify_body_type_claimC2 (bust waist hips : ℚ) : BodyType :=
  let bust_hip_ratio := bust / hips
  let waist_bust_ratio := waist / bust
  if 0.9 ≤ bust_hip_ratio ∧ bust_hip_ratio ≤ 1.1 ∧ waist_bust_ratio < 0.8 then
    .hourglass
  else if bust_hip_ratio < 0.9 then
    .pear
  else if bust_hip_ratio > 1.1 then
    .invertedTriangle
  else if bust_hip_ratio > 1.0 ∧ waist_bust_ratio ≥ 0.8 then
    .apple
  else
    .rectangle

/-- The C2 classifier claim amended only at the Apple boundary: the code
requires `waist/bust > 0.8` (strict), not `≥ 0.8`. -/
def classify_body_type_amendedC2 (bust waist hips : ℚ) : BodyType :=
  let bust_hip_ratio := bust / hips
  let waist_bust_ratio := waist / bust
  if 0.9 ≤ bust_hip_ratio ∧ bust_hip_ratio ≤ 1.1 ∧ waist_bust_ratio < 0.8 then
    .hourglass
  else if bust_hip_ratio < 0.9 then
    .pear
  else if bust_hip_ratio > 1.1 then
    .invertedTriangle
  else if bust_hip_ratio > 1.0 ∧ waist_bust_ratio > 0.8 then
    .apple
  else
    .rectangle

/-! ## Dress-size lookup

From `src/backend/src/services/sizing.py`: `SIZE_CHART`,
`_find_size_for_measurement` and `calculate_dress_size`. -/

structure SizeRow where
  size : ℤ
  bust : ℚ
  waist : ℚ
  hips : ℚ
  deriving DecidableEq

/-- The US bridal sizing chart of `sizing.py`, rows `(size, bust, waist, hips)`. -/
def SIZE_CHART : List SizeRow :=
  [⟨0, 32.5, 24.5, 35.5⟩,
   ⟨2, 33.5, 25.5, 36.5⟩,
   ⟨4, 34.5, 26.5, 37.5⟩,
   ⟨6, 35.5, 27.5, 38.5⟩,
   ⟨8, 36.5, 28.5, 39.5⟩,
   ⟨10, 37.5, 29.5, 40.5⟩,
   ⟨12, 39.0, 31.0, 42.0⟩,
   ⟨14, 41.0, 33.0, 44.0⟩,
   ⟨16, 43.0, 35.0, 46.0⟩,
   ⟨18, 45.0, 37.0, 48.0⟩,
   ⟨20, 47.0, 39.0, 50.0⟩,
   ⟨22, 49.0, 41.0, 52.0⟩,
   ⟨24, 51.0, 43.0, 54.0⟩]

/-- `_find_size_for_measurement`: scan the chart for the first row whose
threshold in column `f` is not exceeded by `v`; `dflt` is the size of the
last chart row (returned when `v` is larger than every row). -/
def findSize (f : SizeRow → ℚ) (v : ℚ) : List SizeRow → ℤ → ℤ
  | [], dflt => dflt
  | r :: t, dflt => if v ≤ f r then r.size else findSize f v t dflt

/-- `calculate_dress_size`: the conservative maximum over the three
per-measurement sizes. -/
def calculate_dress_size (bust waist hips : ℚ) : ℤ :=
  max (findSize SizeRow.bust bust SIZE_CHART 24)
    (max (findSize SizeRow.waist waist SIZE_CHART 24)
      (findSize SizeRow.hips hips SIZE_CHART 24))

/-- First row of the chart all of whose three thresholds the measurements do
not exceed (the spec's wording of the lookup); the largest chart size when
no row fits. -/
def firstFitAll (bust waist hips : ℚ) : List SizeRow → ℤ → ℤ
  | [], dflt => dflt
  | r :: t, dflt =>
      if bust ≤ r.bust ∧ waist ≤ r.waist ∧ hips ≤ r.hips then r.size
      else firstFitAll bust waist hips t dflt

/-- The dress-size lookup as the spec words it. -/
def dress_size_first_fit (bust waist hips : ℚ) : ℤ :=
  firstFitAll bust waist hips SIZE_CHART 24

/-- Row-wise ordering of the chart: size and all three thresholds
nondecreasing. -/
def rowLe (a b : SizeRow) : Prop :=
  a.size ≤ b.size ∧ a.bust ≤ b.bust ∧ a.waist ≤ b.waist ∧ a.hips ≤ b.hips

/-! ## Heuristic initial phenotype estimate

From `src/backend/src/services/anny_integration.py`
(`ANNYBodyAnalyzer._estimate_initial_phenotypes`).  Dictionaries are
association lists; Python truthiness of an optional float (`if value:`)
is `some x` with `x ≠ 0`.  The weight branch divides by the runtime value
`mesh_height`, so its arithmetic follows IEEE-754 semantics (`PyFloat`
below): division by zero yields an infinity (or NaN for `0/0`),
`0 * inf = NaN`, and NaN propagates through `np.clip`.  The remaining
fields only ever divide by nonzero constants (100, 0.5, 3, 60) or by a
value guarded positive, so they stay finite and are carried as exact
rationals. -/

/-- Association-list lookup, modelling Python dict access. -/
def alook {α : Type} : List (String × α) → String → Option α
  | [], _ => none
  | (k, v) :: t, s => if k = s then some v else alook t s

/-- `np.clip(x, lo, hi)` for a finite float and `lo ≤ hi`. -/
def clipQ (x lo hi : ℚ) : ℚ := max lo (min x hi)

/-- IEEE-754 double values as the estimator can produce them: a finite
value (carried exactly), the two infinities, or NaN.  Signed zero is not
modelled; where it matters (`inf / 0`) the unsigned-zero convention is
noted on the operation. -/
inductive PyFloat where
  | fin (q : ℚ)
  | inf
  | ninf
  | nan
  deriving DecidableEq, Repr

/-- IEEE negation. -/
def pyNeg : PyFloat → PyFloat
  | .fin q => .fin (-q)
  | .inf => .ninf
  | .ninf => .inf
  | .nan => .nan

/-- IEEE addition: NaN propagates, `inf + (-inf) = NaN`. -/
def pyAdd : PyFloat → PyFloat → PyFloat
  | .nan, _ => .nan
  | _, .nan => .nan
  | .inf, .ninf => .nan
  | .ninf, .inf => .nan
  | .inf, _ => .inf
  | _, .inf => .inf
  | .ninf, _ => .ninf
  | _, .ninf => .ninf
  | .fin a, .fin b => .fin (a + b)

/-- IEEE subtraction. -/
def pySub (x y : PyFloat) : PyFloat := pyAdd x (pyNeg y)

/-- IEEE multiplication: NaN propagates, `0 * (±inf) = NaN`. -/
def pyMul : PyFloat → PyFloat → PyFloat
  | .nan, _ => .nan
  | _, .nan => .nan
  | .inf, .inf => .inf
  | .inf, .ninf => .ninf
  | .ninf, .inf => .ninf
  | .ninf, .ninf => .inf
  | .inf, .fin b => if b = 0 then .nan else if 0 < b then .inf else .ninf
  | .fin a, .inf => if a = 0 then .nan else if 0 < a then .inf else .ninf
  | .ninf, .fin b => if b = 0 then .nan else if 0 < b then .ninf else .inf
  | .fin a, .ninf => if a = 0 then .nan else if 0 < a then .ninf else .inf
  | .fin a, .fin b => .fin (a * b)

/-- IEEE division: NaN propagates, `inf/inf = NaN`, `x/0` is a signed
infinity for `x ≠ 0` and NaN for `0/0` (zero is treated as `+0`). -/
def pyDiv : PyFloat → PyFloat → PyFloat
  | .nan, _ => .nan
  | _, .nan => .nan
  | .inf, .inf => .nan
  | .inf, .ninf => .nan
  | .ninf, .inf => .nan
  | .ninf, .ninf => .nan
  | .inf, .fin b => if 0 ≤ b then .inf else .ninf
  | .ninf, .fin b => if 0 ≤ b then .ninf else .inf
  | .fin _, .inf => .fin 0
  | .fin _, .ninf => .fin 0
  | .fin a, .fin b =>
      if b = 0 then (if a = 0 then .nan else if 0 < a then .inf else .ninf)
      else .fin (a / b)

/-- `np.clip` on a float: NaN propagates, the infinities clamp to the
bounds. -/
def pyClip (x : PyFloat) (lo hi : ℚ) : PyFloat :=
  match x with
  | .nan => .nan
  | .inf => .fin hi
  | .ninf => .fin lo
  | .fin q => .fin (max lo (min q hi))

/-- The fields of the `landmarks` dict the estimator reads:
`landmarks.get("circumferences", {})` and `landmarks.get("height", 1.7)`. -/
structure LandmarksIn where
  circs : List (String × ℚ)
  height? : Option ℚ

/-- The six ANNY phenotype fields as the external fitter returns them
(a PhenotypeVector of finite scalars). -/
structure Phenotypes where
  gender : ℚ
  age : ℚ
  height : ℚ
  weight : ℚ
  muscle : ℚ
  proportions : ℚ

/-- The estimator's six output fields.  The weight field is a float
(its computation can produce `inf`/NaN when `mesh_height = 0`); every
other field only divides by nonzero constants or guarded-positive values
and stays finite. -/
structure PhenotypesEst where
  gender : ℚ
  age : ℚ
  height : ℚ
  weight : PyFloat
  muscle : ℚ
  proportions : ℚ

/-- `ANNYBodyAnalyzer._estimate_initial_phenotypes`. -/
def estimate_initial_phenotypes (lm : LandmarksIn) (user_height_cm : Option ℚ)
    (user_gender : Option String) : PhenotypesEst :=
  let gender : ℚ :=
    match user_gender with
    | some g => if g ≠ "" ∧ g.toLower = "female" then 1 else 0
    | none => 0
  let height : ℚ :=
    match user_height_cm with
    | some h =>
        if h ≠ 0 then clipQ ((h / 100 - 1.5) / 0.5) 0.05 0.95 else 0.5
    | none => 0.5
  let weight : PyFloat :=
    match alook lm.circs "hips", alook lm.circs "waist" with
    | some _, some _ =>
        let avg_circ := pyDiv (.fin ((alook lm.circs "bust").getD 0 +
          (alook lm.circs "waist").getD 0 + (alook lm.circs "hips").getD 0)) (.fin 3)
        let mesh_height := lm.height?.getD 1.7
        (match user_height_cm with
         | some h =>
             if h ≠ 0 then
               let scale := pyDiv (.fin (h / 100)) (.fin mesh_height)
               let avg_circ_real := pyMul (pyMul avg_circ scale) (.fin 100)
               pyClip (pyAdd (pyDiv (pySub avg_circ_real (.fin 70)) (.fin 60)) (.fin 0.3))
                 0.1 0.95
             else .fin 0.5
         | none => .fin 0.5)
    | _, _ => .fin 0.5
  let proportions : ℚ :=
    match alook lm.circs "waist", alook lm.circs "hips" with
    | some w, some hp =>
        if hp > 0 then
          let wh_ratio := w / hp
          if wh_ratio < 0.75 then 0.6
          else if wh_ratio > 0.85 then 0.4
          else 0.5
        else 0.5
    | _, _ => 0.5
  { gender := gender, age := 0.4, height := height, weight := weight,
    muscle := 0.5, proportions := proportions }

/-- Modelled from the spec: the external gradient-based parameter fitter
(`anny.parameters_regressor.ParametersRegressor`, outside this repository)
returns a refined PhenotypeVector; per the data model, each of its fields
is constrained to `[0, 1]`. -/
def RegressorContract (p : Phenotypes) : Prop :=
  (0 ≤ p.gender ∧ p.gender ≤ 1) ∧ (0 ≤ p.age ∧ p.age ≤ 1) ∧
  (0 ≤ p.height ∧ p.height ≤ 1) ∧ (0 ≤ p.weight ∧ p.weight ≤ 1) ∧
  (0 ≤ p.muscle ∧ p.muscle ≤ 1) ∧ (0 ≤ p.proportions ∧ p.proportions ≤ 1)

/-- Phase 4 of `analyze_from_vertices` extracts the final phenotypes of the
`FittingResult` directly from the regressor output
(`best_params = {k: float(v[0]) for k, v in phenotype_kwargs.items()}`). -/
def fittingResultPhenotypes (regressorOut : Phenotypes) : Phenotypes := regressorOut

/-! ## Entry-point failure on an empty mesh

The front of `ANNYBodyAnalyzer.analyze_from_vertices` (orientation
detection): `vertices[:, 2].max()` etc.  numpy raises `ValueError`
("zero-size array to reduction operation") on an empty array; no
`InvalidMeshError` class exists anywhere in the repository (the
`invalidMeshError` constructor below models the error type the claim
names, so that the two can be compared). -/

/-- Points as rational triples `(x, y, z)`. -/
abbrev Q3 := ℚ × ℚ × ℚ

inductive PyError where
  | valueError
  | invalidMeshError
  deriving DecidableEq, Repr

/-- `np.max` over one coordinate column: a reduction over an empty array
raises `ValueError`. -/
def npMax : List ℚ → Except PyError ℚ
  | [] => .error .valueError
  | x :: t => .ok (t.foldl max x)

/-- `np.min`, same empty-array behaviour. -/
def npMin : List ℚ → Except PyError ℚ
  | [] => .error .valueError
  | x :: t => .ok (t.foldl min x)

/-- The orientation-detection prefix of `analyze_from_vertices`: compare the
z- and y-ranges of the vertex array and permute/flip a Y-up mesh into the
Z-up canonical frame. -/
def analyze_from_vertices_normalize (vertices : List Q3) : Except PyError (List Q3) := do
  let zmax ← npMax (vertices.map (fun p => p.2.2))
  let zmin ← npMin (vertices.map (fun p => p.2.2))
  let ymax ← npMax (vertices.map (fun p => p.2.1))
  let ymin ← npMin (vertices.map (fun p => p.2.1))
  if zmax - zmin > ymax - ymin then
    pure vertices
  else
    pure (vertices.map (fun p => (p.1, -p.2.2, p.2.1)))

/-! ## Keypoint-based joint extraction

From `ANNYBodyAnalyzer._extract_joints_from_keypoints` in
`anny_integration.py`: SAM-3D keypoints (70 triples) are flipped and
permuted into the canonical frame, centred on the mean of the two hip
keypoints (indices 9, 10), and read off by index; `joints["head"]` aliases
row 0 of the centred array, so the `+= 0.10` nudge updates both. -/

def q3add (a b : Q3) : Q3 := (a.1 + b.1, a.2.1 + b.2.1, a.2.2 + b.2.2)

def q3sub (a b : Q3) : Q3 := (a.1 - b.1, a.2.1 - b.2.1, a.2.2 - b.2.2)

def q3smul (c : ℚ) (a : Q3) : Q3 := (c * a.1, c * a.2.1, c * a.2.2)

/-- SAM-3D JSON → ANNY space: flip Y, then permute columns `[0, 2, 1]`. -/
def kpTransform (p : Q3) : Q3 := (p.1, p.2.2, -p.2.1)

/-- Mean of a keypoint list (the `len ≤ 10` fallback branch). -/
def q3mean (l : List Q3) : Q3 :=
  ((l.map (fun p => p.1)).sum / l.length,
   (l.map (fun p => p.2.1)).sum / l.length,
   (l.map (fun p => p.2.2)).sum / l.length)

/-- The MHR70 index → joint-name mapping used by the extractor. -/
def kpMapping : List (String × Nat) :=
  [("head", 0), ("shoulder_l", 5), ("shoulder_r", 6), ("elbow_l", 7), ("elbow_r", 8),
   ("hip_l", 9), ("hip_r", 10), ("knee_l", 11), ("knee_r", 12), ("ankle_l", 13),
   ("ankle_r", 14), ("wrist_l", 62), ("wrist_r", 41), ("neck", 69),
   ("olecranon_l", 63), ("olecranon_r", 64), ("acromion_l", 67), ("acromion_r", 68)]

/-- `joints['head'][1] += 0.10`: the head nudge along the (depth) Y axis. -/
def nudgeY (p : Q3) : Q3 := (p.1, p.2.1 + 0.10, p.2.2)

/-- Replace the value stored under `k` in an association list. -/
def aset {α : Type} (l : List (String × α)) (k : String) (v : α) : List (String × α) :=
  l.map (fun e => if e.1 = k then (k, v) else e)

/-- The hip-keypoint mean of the transformed keypoints (indices 9, 10),
with the mean-of-all fallback when fewer than 11 keypoints are supplied. -/
def kpPelvisCenter (t : List Q3) : Q3 :=
  if 10 < t.length then
    q3smul (1/2) (q3add (t.getD 9 (0,0,0)) (t.getD 10 (0,0,0)))
  else q3mean t

/-- Transformed keypoints centred on the hip-keypoint mean (`kp_final`). -/
def kpCentered (kp : List Q3) : List Q3 :=
  (kp.map kpTransform).map (fun p => q3sub p (kpPelvisCenter (kp.map kpTransform)))

/-- The index-reading loop over `kpMapping`. -/
def kpJoints0 (kpf : List Q3) : List (String × Q3) :=
  kpMapping.foldl
    (fun acc e => if e.2 < kpf.length then acc ++ [(e.1, kpf.getD e.2 (0,0,0))] else acc)
    []

/-- Adding the derived pelvis joint (midpoint of the two hip joints). -/
def kpJoints1 (j0 : List (String × Q3)) : List (String × Q3) :=
  match alook j0 "hip_l", alook j0 "hip_r" with
  | some hl, some hr => j0 ++ [("pelvis", q3smul (1/2) (q3add hl hr))]
  | _, _ => j0

/-- `ANNYBodyAnalyzer._extract_joints_from_keypoints`.  `joints["head"]`
aliases row 0 of `kp_final`, so the head nudge updates both. -/
def extract_joints_from_keypoints (kp : List Q3) :
    List (String × Q3) × List Q3 :=
  let kpf := kpCentered kp
  let j1 := kpJoints1 (kpJoints0 kpf)
  match alook j1 "head" with
  | some hv => (aset j1 "head" (nudgeY hv), kpf.set 0 (nudgeY hv))
  | none => (j1, kpf)

/-- The transformed keypoints centred on the hip-keypoint mean, read at
index `i`: the reference value the extractor is specified against. -/
def centeredKp (kp : List Q3) (i : Nat) : Q3 :=
  let t := kp.map kpTransform
  let pel := q3smul (1/2) (q3add (t.getD 9 (0,0,0)) (t.getD 10 (0,0,0)))
  q3sub (t.getD i (0,0,0)) pel

/-- A concrete 70-keypoint input: all keypoints at the origin except the
neck keypoint (index 69) at `(1, 1, 1)`. -/
def kpC8 : List Q3 := List.replicate 69 (0, 0, 0) ++ [(1, 1, 1)]

/-! ## Real three-dimensional geometry

Vectors are `Fin 3 → ℝ`, matrices `Matrix (Fin 3) (Fin 3) ℝ`.
`rodrigues` models `scipy.spatial.transform.Rotation.from_rotvec(...).as_matrix()`
(the Rodrigues formula), `asRotvec` models
`Rotation.from_matrix(...).as_rotvec()` (the canonical rotation vector,
angle in `[0, π]`). -/

abbrev V3 := Fin 3 → ℝ

abbrev M3 := Matrix (Fin 3) (Fin 3) ℝ

def dot3 (u v : V3) : ℝ := u 0 * v 0 + u 1 * v 1 + u 2 * v 2

def cross3 (u v : V3) : V3 :=
  ![u 1 * v 2 - u 2 * v 1, u 2 * v 0 - u 0 * v 2, u 0 * v 1 - u 1 * v 0]

noncomputable def norm3 (v : V3) : ℝ := Real.sqrt (dot3 v v)

/-- The skew-symmetric cross-product matrix of an axis. -/
def crossMat (k : V3) : M3 :=
  !![0, -k 2, k 1; k 2, 0, -k 0; -k 1, k 0, 0]

/-- `Rotation.from_rotvec(v).as_matrix()`: the Rodrigues formula with
angle `‖v‖` and axis `v/‖v‖` (identity at `v = 0`). -/
noncomputable def rodrigues (v : V3) : M3 :=
  if norm3 v = 0 then 1
  else
    let K := crossMat ((1 / norm3 v) • v)
    1 + Real.sin (norm3 v) • K + (1 - Real.cos (norm3 v)) • (K * K)

/-- A proper rotation: orthogonal with determinant `+1`. -/
def isRot (M : M3) : Prop := Mᵀ * M = 1 ∧ M.det = 1

/-! ## Hierarchical pose solver

From `src/backend/src/services/anny_pose_solver.py`
(`ANNYPoseSolver.compute_pose`, `_solve_root_heading`, `_apply_heuristics`)
and the pose application loop of
`ANNYBodyAnalyzer._apply_pose_to_anny` in `anny_integration.py`. -/

/-- `np.clip(x, lo, hi)` over the reals. -/
noncomputable def clampR (x lo hi : ℝ) : ℝ := max lo (min x hi)

/-- `v / (np.linalg.norm(v) + 1e-8)`. -/
noncomputable def normalize8 (v : V3) : V3 := (1 / (norm3 v + 1e-8)) • v

/-- Step C of `compute_pose`: the local delta rotation vector taking
`current_dir` onto `tgt_dir` (`local_rotvec_global` in the code), with the
near-parallel and near-antiparallel branches. -/
noncomputable def solveLocalRotvec (current_dir tgt_dir : V3) : V3 :=
  let axis := cross3 current_dir tgt_dir
  let axis_norm := norm3 axis
  if axis_norm < 1e-6 then
    if 0 < dot3 current_dir tgt_dir then 0
    else
      let ortho := cross3 current_dir ![1, 0, 0]
      let ortho2 := if norm3 ortho < 1e-6 then cross3 current_dir ![0, 1, 0] else ortho
      Real.pi • ((1 / norm3 ortho2) • ortho2)
  else
    let angle := Real.arccos (clampR (dot3 current_dir tgt_dir) (-1) 1)
    angle • ((1 / axis_norm) • axis)

/-- `Rotation.from_matrix(M).as_rotvec()`: the canonical rotation vector of
a rotation matrix (angle in `[0, π]` from the trace, axis from the skew
part; at angle `π` the axis is recovered from the diagonal, up to the
standard sign convention). -/
noncomputable def asRotvec (M : M3) : V3 :=
  let θ := Real.arccos (clampR ((M 0 0 + M 1 1 + M 2 2 - 1) / 2) (-1) 1)
  if θ = 0 then 0
  else if Real.sin θ = 0 then
    Real.pi • ![Real.sqrt (max ((M 0 0 + 1) / 2) 0), Real.sqrt (max ((M 1 1 + 1) / 2) 0),
      Real.sqrt (max ((M 2 2 + 1) / 2) 0)]
  else
    (θ / (2 * Real.sin θ)) • ![M 2 1 - M 1 2, M 0 2 - M 2 0, M 1 0 - M 0 1]

/-- Character-list prefix test. -/
def leadsWith : List Char → List Char → Bool
  | [], _ => true
  | _ :: _, [] => false
  | a :: as, b :: bs => a = b && leadsWith as bs

/-- Character-list infix test. -/
def hasInfixChars (pat : List Char) : List Char → Bool
  | [] => pat.isEmpty
  | c :: t => leadsWith pat (c :: t) || hasInfixChars pat t

/-- `pattern in name.lower()` for an already-lowercase pattern. -/
def lowerContains (name pat : String) : Bool :=
  hasInfixChars pat.data (name.data.map Char.toLower)

/-- `ANNYPoseSolver._apply_heuristics`: leg bones keep full flexion but
have twist and abduction damped to 50%. -/
noncomputable def applyHeuristics (bone_name : String) (rotvec : V3) : V3 :=
  if lowerContains bone_name "upperleg" || lowerContains bone_name "lowerleg" then
    ![rotvec 0, rotvec 1 * 0.5, rotvec 2 * 0.5]
  else rotvec

/-- `np.arctan2`. -/
noncomputable def atan2 (y x : ℝ) : ℝ :=
  if 0 < x then Real.arctan (y / x)
  else if x < 0 then
    (if 0 ≤ y then Real.arctan (y / x) + Real.pi else Real.arctan (y / x) - Real.pi)
  else if 0 < y then Real.pi / 2
  else if y < 0 then -(Real.pi / 2)
  else 0

/-- `ANNYPoseSolver._solve_root_heading`: pure yaw on the root bone from the
horizontal angle between the two hip-to-hip vectors; skipped when any hip
joint is missing. -/
noncomputable def solve_root_heading (src tgt : List (String × V3)) : List (String × V3) :=
  match alook src "hip_l", alook src "hip_r", alook tgt "hip_l", alook tgt "hip_r" with
  | some sl, some sr, some tl, some tr =>
      [("root", ![0, 0, atan2 (tl 1 - tr 1) (tl 0 - tr 0) - atan2 (sl 1 - sr 1) (sl 0 - sr 0)])]
  | _, _, _, _ => []

/-- One row of the kinematic chain table:
`(StartJoint, EndJoint, BoneName, ParentBoneName)`. -/
structure ChainSpec where
  startJoint : String
  endJoint : String
  bone : String
  parent : Option String
  deriving DecidableEq

/-- The fixed chain table of `compute_pose`. -/
def chains : List ChainSpec :=
  [⟨"neck", "head", "neck01", none⟩,
   ⟨"shoulder_l", "elbow_l", "upperarm01.L", none⟩,
   ⟨"elbow_l", "wrist_l", "lowerarm01.L", some "upperarm01.L"⟩,
   ⟨"shoulder_r", "elbow_r", "upperarm01.R", none⟩,
   ⟨"elbow_r", "wrist_r", "lowerarm01.R", some "upperarm01.R"⟩,
   ⟨"hip_l", "knee_l", "upperleg01.L", none⟩,
   ⟨"knee_l", "ankle_l", "lowerleg01.L", some "upperleg01.L"⟩,
   ⟨"hip_r", "knee_r", "upperleg01.R", none⟩,
   ⟨"knee_r", "ankle_r", "lowerleg01.R", some "upperleg01.R"⟩]

/-- The mutable state of the chain loop: the `rotations` output dict and
the `world_rotations` dict passed to children. -/
structure SolveState where
  rotations : List (String × V3)
  world : List (String × M3)

/-- One iteration of the chain loop of `compute_pose`: skip the chain when
any of its four joints is missing; otherwise solve the local delta,
accumulate the world delta, and store the damped local-frame rotation
vector when the bone is known to the model. -/
noncomputable def solveChainStep (bone_labels : List String) (rest_bone_poses : List M3)
    (source_joints target_joints : List (String × V3)) (st : SolveState) (ch : ChainSpec) :
    SolveState :=
  match alook source_joints ch.startJoint, alook source_joints ch.endJoint,
        alook target_joints ch.startJoint, alook target_joints ch.endJoint with
  | some ss, some se, some ts, some te =>
      let src_dir := normalize8 (fun i => se i - ss i)
      let tgt_dir := normalize8 (fun i => te i - ts i)
      let Rparent : M3 :=
        match ch.parent with
        | some pb => (alook st.world pb).getD 1
        | none => 1
      let current_dir := Rparent *ᵥ src_dir
      let g := solveLocalRotvec current_dir tgt_dir
      let Rlocal := rodrigues g
      let world' := st.world ++ [(ch.bone, Rlocal * Rparent)]
      if ch.bone ∈ bone_labels then
        let rest := rest_bone_poses.getD (bone_labels.indexOf ch.bone) 1
        let local_mat := restᵀ * Rlocal * rest
        let final_rotvec := applyHeuristics ch.bone (asRotvec local_mat)
        { rotations := st.rotations ++ [(ch.bone, final_rotvec)], world := world' }
      else { rotations := st.rotations, world := world' }
  | _, _, _, _ => st

/-- `ANNYPoseSolver.compute_pose`: root heading, then the hierarchical chain
loop. -/
noncomputable def compute_pose (bone_labels : List String) (rest_bone_poses : List M3)
    (source_joints target_joints : List (String × V3)) : List (String × V3) :=
  (chains.foldl (solveChainStep bone_labels rest_bone_poses source_joints target_joints)
    { rotations := solve_root_heading source_joints target_joints, world := [] }).rotations

/-- The pose-application loop of `_apply_pose_to_anny`: the pose parameter
matrix of a bone is the Rodrigues matrix of its stored rotation vector when
one is present (and the bone is known and the rotation non-negligible), and
the identity otherwise. -/
noncomputable def poseParamFor (bone_labels : List String)
    (bone_rotations : List (String × V3)) (bone_name : String) : M3 :=
  match alook bone_rotations bone_name with
  | some rotvec =>
      if bone_name ∈ bone_labels ∧ 1e-6 < norm3 rotvec then rodrigues rotvec else 1
  | none => 1

/-- Single-bone test inputs: source joints with the neck-to-head direction
`(0,0,1)`. -/
def c1src : List (String × V3) := [("neck", ![0, 0, 0]), ("head", ![0, 0, 1])]

/-- Single-bone test inputs: target joints with the neck-to-head direction
`(1,0,0)`. -/
def c1tgt : List (String × V3) := [("neck", ![0, 0, 0]), ("head", ![1, 0, 0])]

/-! ## Rigid aligner (ICP)

From `ANNYBodyAnalyzer._icp_align` in `anny_integration.py`.  The SVD of
the cross-covariance matrix (`np.linalg.svd`) is an external numerical
routine; it enters the embedding as a function parameter returning
`(U, S, Vt)`, constrained only by orthogonality of `U` and `Vt` (the
mathematical contract of an SVD). -/

/-- An orthogonal matrix. -/
def Ortho (M : M3) : Prop := Mᵀ * M = 1

/-- Nearest target point and its distance (`cKDTree.query(p, k=1)`). -/
noncomputable def nearestNeighbor (tgt : List V3) (p : V3) : V3 × ℝ :=
  match tgt with
  | [] => (p, 0)
  | q :: rest =>
      rest.foldl
        (fun best r =>
          let d := norm3 (fun i => p i - r i)
          if d < best.2 then (r, d) else best)
        (q, norm3 (fun i => p i - q i))

/-- `np.mean` of a list of reals. -/
noncomputable def meanR (l : List ℝ) : ℝ := l.sum / l.length

/-- `points.mean(axis=0)`. -/
noncomputable def centroid3 (l : List V3) : V3 := fun i => (l.map (fun p => p i)).sum / l.length

/-- The cross-covariance matrix `H = current.T @ target_pts`. -/
noncomputable def covH (cur tpts : List V3) : M3 :=
  Matrix.of fun a b => ((cur.zip tpts).map (fun pq => pq.1 a * pq.2 b)).sum

/-- `Vt[-1, :] *= -1`. -/
def negLastRow (M : M3) : M3 := Matrix.updateRow M 2 (fun j => -(M 2 j))

/-- The per-iteration rotation solve of `_icp_align`: `R = Vt.T @ U.T`,
with the reflection correction (negate the last singular vector when the
determinant is negative). -/
noncomputable def solveCorrectedRotation (svdF : M3 → M3 × V3 × M3) (H : M3) : M3 :=
  let U := (svdF H).1
  let Vt := (svdF H).2.2
  let R := Vtᵀ * Uᵀ
  if R.det < 0 then (negLastRow Vt)ᵀ * Uᵀ else R

/-- The per-iteration damping: scale the rotation vector by
`rotation_scale` when it is below `1.0`. -/
noncomputable def scaledRot (rotation_scale : ℝ) (R : M3) : M3 :=
  if rotation_scale < 1 then rodrigues (rotation_scale • asRotvec R) else R

/-- The ICP iteration loop, fuelled by the iteration cap.  Returns the
transformed points, the accumulated rotation, the number of iterations
executed, and — when the loop exited early — the mean nearest-neighbour
distance that triggered the exit. -/
noncomputable def icpLoop (svdF : M3 → M3 × V3 × M3) (tgtC : List V3) (rs : ℝ) :
    ℕ → List V3 → M3 → ℕ → List V3 × M3 × ℕ × Option ℝ
  | 0, cur, Rtot, it => (cur, Rtot, it, none)
  | fuel + 1, cur, Rtot, it =>
      let nns := cur.map (nearestNeighbor tgtC)
      let dists := nns.map Prod.snd
      let tpts := nns.map Prod.fst
      let R := scaledRot rs (solveCorrectedRotation svdF (covH cur tpts))
      let cur' := cur.map (fun p => R *ᵥ p)
      let Rtot' := R * Rtot
      if meanR dists < 0.001 then (cur', Rtot', it + 1, some (meanR dists))
      else icpLoop svdF tgtC rs fuel cur' Rtot' (it + 1)

/-- The result record of `_icp_align`. -/
structure IcpResult where
  aligned : List V3
  rotation : M3
  translation : V3
  iters : ℕ
  lastMean : Option ℝ

/-- `ANNYBodyAnalyzer._icp_align`: centre both point sets, iterate, return
the re-shifted points, the accumulated rotation `R_total` and the
never-touched translation `t_total = 0`. -/
noncomputable def icp_align (svdF : M3 → M3 × V3 × M3) (source target : List V3)
    (max_iterations : ℕ) (rotation_scale : ℝ) : IcpResult :=
  let smean := centroid3 source
  let tmean := centroid3 target
  let sc := source.map (fun p => fun i => p i - smean i)
  let tc := target.map (fun p => fun i => p i - tmean i)
  let r := icpLoop svdF tc rotation_scale max_iterations sc 1 0
  { aligned := r.1.map (fun p => fun i => p i + tmean i)
    rotation := r.2.1
    translation := 0
    iters := r.2.2.1
    lastMean := r.2.2.2 }

/-! ## Circumference measurement

From `ANNYBodyAnalyzer._measure_circumference` in `anny_integration.py`.
The trimesh cross-section (`mesh.section(...)` and `path.discrete`) is the
function's external input: `none` models `path is None`, and each loop is
the list of its 3-D polyline points. -/

/-- Perimeter of a loop projected to the XY plane: the sum of the Euclidean
edge lengths `‖p_i − p_{(i+1) mod n}‖₂`. -/
noncomputable def perim2 (loop : List V3) : ℝ :=
  ((loop.zip (loop.drop 1 ++ loop.take 1)).map
    (fun pq => Real.sqrt ((pq.1 0 - pq.2 0) ^ 2 + (pq.1 1 - pq.2 1) ^ 2))).sum

/-- Distance of a loop's XY centroid from the vertical axis. -/
noncomputable def centerDist (loop : List V3) : ℝ :=
  Real.sqrt (meanR (loop.map (fun p => p 0)) ^ 2 + meanR (loop.map (fun p => p 1)) ^ 2)

/-- One step of the best-loop scan: skip loops with fewer than 3 points;
otherwise keep the loop whose centroid is strictly closer to the vertical
axis (`best.2 = none` plays `float("inf")`). -/
noncomputable def betterLoop (best : ℝ × Option ℝ) (loop : List V3) : ℝ × Option ℝ :=
  if loop.length < 3 then best
  else
    match best.2 with
    | none => (perim2 loop, some (centerDist loop))
    | some bd => if centerDist loop < bd then (perim2 loop, some (centerDist loop)) else best

/-- `ANNYBodyAnalyzer._measure_circumference`, as a function of the
cross-section result. -/
noncomputable def measure_circumference (path : Option (List (List V3))) : ℝ :=
  match path with
  | none => 0
  | some loops => (loops.foldl betterLoop (0, none)).1

/-! ## Lemmas and claim theorems -/

/-- On the boundary input `(bust, waist, hips) = (10, 8, 9.5)` the claimed
rule (Apple when `bust/hips > 1` and `waist/bust ≥ 0.8`) answers Apple, but
the code answers Rectangle: its Apple branch is strict (`> 0.8`). -/
theorem classify_body_type_apple_boundary_cex :
    classify_body_type_claimC2 10 8 9.5 = BodyType.apple ∧
    classify_body_type 10 8 9.5 = BodyType.rectangle ∧
    BodyType.apple ≠ BodyType.rectangle := by
  refine ⟨?_, ?_, by decide⟩ <;> norm_num [classify_body_type_claimC2, classify_body_type]

/-- C2 (amended): for positive measurements the ratio classifier agrees
with the claimed decision list once the Apple branch is read strictly
(`waist/bust > 0.8`), and the five documented scenarios classify as
Hourglass, Pear, Apple, InvertedTriangle, Rectangle respectively. -/
theorem classify_body_type_spec :
    (∀ bust waist hips : ℚ, 0 < bust → 0 < waist → 0 < hips →
      classify_body_type bust waist hips = classify_body_type_amendedC2 bust waist hips) ∧
    classify_body_type 36 26 36 = BodyType.hourglass ∧
    classify_body_type 34 28 40 = BodyType.pear ∧
    classify_body_type 38 36 37 = BodyType.apple ∧
    classify_body_type 40 30 35 = BodyType.invertedTriangle ∧
    classify_body_type 35 32 36 = BodyType.rectangle := by
  refine ⟨?_, ?_, ?_, ?_, ?_, ?_⟩
  · intro bust waist hips hb _hw hh
    simp only [classify_body_type, classify_body_type_amendedC2, if_pos hh, if_pos hb]
  all_goals norm_num [classify_body_type]

/-- Witness for `classify_body_type_spec` at the first documented scenario. -/
theorem classify_body_type_spec_witness :
    classify_body_type 36 26 36 = classify_body_type_amendedC2 36 26 36 :=
  classify_body_type_spec.1 36 26 36 (by norm_num) (by norm_num) (by norm_num)

/-- C9 counterexample: at `(bust, waist, hips) = (10, 5, 10)` the ratio
classifier answers Hourglass (waist/bust = 0.5 < 0.8) while the
inch-difference classifier answers Rectangle (waist only 5 inches under
bust/hips, less than the 9 it requires), so the two implementations are
not equivalent on all positive triples. -/
theorem classifiers_disagree_cex :
    classify_body_type 10 5 10 = BodyType.hourglass ∧
    classify_body_type_diff 10 5 10 = BodyType.rectangle ∧
    BodyType.hourglass ≠ BodyType.rectangle := by
  refine ⟨?_, ?_, by decide⟩ <;> norm_num [classify_body_type, classify_body_type_diff]

/-- C9 (amended): the two body-type classifiers agree on the five
documented classifier scenarios, though not on every positive triple. -/
theorem classifiers_agree_on_documented_scenarios :
    classify_body_type 36 26 36 = classify_body_type_diff 36 26 36 ∧
    classify_body_type 34 28 40 = classify_body_type_diff 34 28 40 ∧
    classify_body_type 38 36 37 = classify_body_type_diff 38 36 37 ∧
    classify_body_type 40 30 35 = classify_body_type_diff 40 30 35 ∧
    classify_body_type 35 32 36 = classify_body_type_diff 35 32 36 := by
  refine ⟨?_, ?_, ?_, ?_, ?_⟩ <;>
    norm_num [classify_body_type, classify_body_type_diff]

lemma le_findSize (f : SizeRow → ℚ) (v : ℚ) :
    ∀ (l : List SizeRow) (d x : ℤ), (∀ r ∈ l, x ≤ r.size) → x ≤ d →
      x ≤ findSize f v l d := by
  intro l
  induction l with
  | nil => intro d x _ hd; simpa [findSize] using hd
  | cons r t ih =>
      intro d x hl hd
      by_cases hv : v ≤ f r
      · simpa [findSize, hv] using hl r (List.mem_cons_self r t)
      · simpa [findSize, hv] using ih d x (fun r' hr' => hl r' (List.mem_cons_of_mem r hr')) hd

/-- If a measurement already fits at the head row, then on the tail its
first-fit size is at most any other measurement's first-fit size. -/
lemma fitHead_le (f g : SizeRow → ℚ) (v w : ℚ) (r : SizeRow) (t : List SizeRow) (d : ℤ)
    (hpair : List.Pairwise rowLe (r :: t)) (hd : ∀ x ∈ r :: t, x.size ≤ d)
    (hfit : v ≤ f r) (hmono : ∀ a b, rowLe a b → f a ≤ f b) :
    findSize f v t d ≤ findSize g w t d := by
  rcases List.pairwise_cons.mp hpair with ⟨hr, ht⟩
  cases t with
  | nil => simp [findSize]
  | cons r2 t2 =>
      have hfit2 : v ≤ f r2 := le_trans hfit (hmono r r2 (hr r2 (List.mem_cons_self r2 t2)))
      have h1 : findSize f v (r2 :: t2) d = r2.size := by simp [findSize, hfit2]
      rw [h1]
      refine le_findSize g w (r2 :: t2) d r2.size ?_ ?_
      · intro x hx
        rcases List.mem_cons.mp hx with hx | hx
        · simp [hx]
        · exact ((List.pairwise_cons.mp ht).1 x hx).1
      · exact hd r2 (List.mem_cons_of_mem r (List.mem_cons_self r2 t2))

/-- Equivalence behind claim C5: on a chart with nondecreasing rows and
sizes bounded by the default, the first row fitting all three measurements
yields exactly the maximum of the three per-measurement first-fit sizes. -/
lemma firstFitAll_eq_max (b w h : ℚ) :
    ∀ (l : List SizeRow) (d : ℤ), List.Pairwise rowLe l → (∀ r ∈ l, r.size ≤ d) →
      firstFitAll b w h l d =
        max (findSize SizeRow.bust b l d)
          (max (findSize SizeRow.waist w l d) (findSize SizeRow.hips h l d)) := by
  intro l
  induction l with
  | nil => intro d _ _; simp [firstFitAll, findSize]
  | cons r t ih =>
      intro d hpair hd
      have hdt : ∀ x ∈ t, x.size ≤ d := fun x hx => hd x (List.mem_cons_of_mem r hx)
      have hpt : List.Pairwise rowLe t := (List.pairwise_cons.mp hpair).2
      have hr : ∀ x ∈ t, rowLe r x := (List.pairwise_cons.mp hpair).1
      have hsb : r.size ≤ findSize SizeRow.bust b t d :=
        le_findSize _ _ t d r.size (fun x hx => (hr x hx).1) (hd r (List.mem_cons_self r t))
      have hsw : r.size ≤ findSize SizeRow.waist w t d :=
        le_findSize _ _ t d r.size (fun x hx => (hr x hx).1) (hd r (List.mem_cons_self r t))
      have hsh : r.size ≤ findSize SizeRow.hips h t d :=
        le_findSize _ _ t d r.size (fun x hx => (hr x hx).1) (hd r (List.mem_cons_self r t))
      by_cases cb : b ≤ r.bust <;> by_cases cw : w ≤ r.waist <;> by_cases ch : h ≤ r.hips
      · simp [firstFitAll, findSize, cb, cw, ch]
      all_goals {
        have hIH := ih d hpt hdt
        first
        | (have hbw : findSize SizeRow.bust b t d ≤ findSize SizeRow.waist w t d :=
            fitHead_le _ _ _ _ r t d hpair hd cb (fun a b' hab => hab.2.1)
           have hbh : findSize SizeRow.bust b t d ≤ findSize SizeRow.hips h t d :=
            fitHead_le _ _ _ _ r t d hpair hd cb (fun a b' hab => hab.2.1)
           skip)
        | skip
        first
        | (have hwb : findSize SizeRow.waist w t d ≤ findSize SizeRow.bust b t d :=
            fitHead_le _ _ _ _ r t d hpair hd cw (fun a b' hab => hab.2.2.1)
           have hwh : findSize SizeRow.waist w t d ≤ findSize SizeRow.hips h t d :=
            fitHead_le _ _ _ _ r t d hpair hd cw (fun a b' hab => hab.2.2.1)
           skip)
        | skip
        first
        | (have hhb : findSize SizeRow.hips h t d ≤ findSize SizeRow.bust b t d :=
            fitHead_le _ _ _ _ r t d hpair hd ch (fun a b' hab => hab.2.2.2)
           have hhw : findSize SizeRow.hips h t d ≤ findSize SizeRow.waist w t d :=
            fitHead_le _ _ _ _ r t d hpair hd ch (fun a b' hab => hab.2.2.2)
           skip)
        | skip
        simp only [firstFitAll, findSize, cb, cw, ch, if_true, if_false, hIH,
          if_neg, if_pos, and_true, and_false, false_and, true_and, ite_true, ite_false]
        all_goals omega
      }

/-- C5: the dress-size lookup defined as "max of the three per-measurement
first-fit sizes" coincides with the spec's "first row of the ordered chart
fitting all three measurements, else the largest chart size", for all
rational measurements; a measurement beyond every row yields the largest
size 24; and `(36.5, 28.5, 39.5)` yields size 8. -/
theorem calculate_dress_size_spec :
    (∀ b w h : ℚ, calculate_dress_size b w h = dress_size_first_fit b w h) ∧
    dress_size_first_fit 1000 1000 1000 = 24 ∧
    calculate_dress_size 36.5 28.5 39.5 = 8 := by
  refine ⟨?_, ?_, ?_⟩
  · intro b w h
    have hpair : List.Pairwise rowLe SIZE_CHART := by
      simp only [SIZE_CHART, List.pairwise_cons, List.mem_cons, List.not_mem_nil, rowLe]
      norm_num
    have hd : ∀ r ∈ SIZE_CHART, r.size ≤ 24 := by
      intro r hr
      simp only [SIZE_CHART, List.mem_cons, List.not_mem_nil, or_false] at hr
      rcases hr with rfl | rfl | rfl | rfl | rfl | rfl | rfl | rfl | rfl | rfl | rfl | rfl | rfl <;>
        norm_num
    exact (firstFitAll_eq_max b w h SIZE_CHART 24 hpair hd).symm
  · norm_num [dress_size_first_fit, firstFitAll, SIZE_CHART]
  · norm_num [calculate_dress_size, findSize, SIZE_CHART]

lemma clipQ_mem (x lo hi : ℚ) (h : lo ≤ hi) : lo ≤ clipQ x lo hi ∧ clipQ x lo hi ≤ hi :=
  ⟨le_max_left lo _, max_le h (min_le_right x hi)⟩

lemma pyAdd_fin_fin (a b : ℚ) : pyAdd (.fin a) (.fin b) = .fin (a + b) := rfl

lemma pyMul_fin_fin (a b : ℚ) : pyMul (.fin a) (.fin b) = .fin (a * b) := rfl

lemma pySub_fin_fin (a b : ℚ) : pySub (.fin a) (.fin b) = .fin (a - b) := by
  show PyFloat.fin (a + -b) = PyFloat.fin (a - b)
  rw [sub_eq_add_neg]

lemma pyDiv_fin_fin (a b : ℚ) (hb : b ≠ 0) : pyDiv (.fin a) (.fin b) = .fin (a / b) := by
  simp [pyDiv, hb]

lemma pyClip_fin (q lo hi : ℚ) : pyClip (.fin q) lo hi = .fin (max lo (min q hi)) := rfl

lemma pyClip_mem (x : PyFloat) (lo hi : ℚ) (h : lo ≤ hi) :
    pyClip x lo hi = PyFloat.nan ∨
      ∃ q : ℚ, pyClip x lo hi = PyFloat.fin q ∧ lo ≤ q ∧ q ≤ hi := by
  cases x with
  | nan => exact Or.inl rfl
  | inf => exact Or.inr ⟨hi, rfl, h, le_refl hi⟩
  | ninf => exact Or.inr ⟨lo, rfl, le_refl lo, h⟩
  | fin q =>
      exact Or.inr ⟨max lo (min q hi), rfl, le_max_left _ _,
        max_le h (min_le_right _ _)⟩

/-- C3 counterexample: at a landmark mesh of height `0` whose waist and
hip circumferences are both `0`, with a user height of `170` cm, the
scale division `(170/100)/mesh_height` yields `+inf`, the zero average
circumference times that infinity is NaN, and NaN survives `np.clip`:
the weight field of the estimate is NaN, which is not a finite value, so
it lies in no interval at all — refuting the claimed `[0.1, 0.95]`
bound. -/
theorem estimate_weight_nan_cex :
    (estimate_initial_phenotypes ⟨[("waist", 0), ("hips", 0)], some 0⟩
        (some 170) none).weight = PyFloat.nan ∧
      ∀ q : ℚ, PyFloat.fin q ≠ PyFloat.nan := by
  refine ⟨?_, fun q h => PyFloat.noConfusion h⟩
  have hb : alook [("waist", (0:ℚ)), ("hips", 0)] "bust" = none := by
    simp only [alook, String.reduceEq, reduceIte]
  have hhp : alook [("waist", (0:ℚ)), ("hips", 0)] "hips" = some 0 := by
    simp only [alook, String.reduceEq, reduceIte]
  have hwa : alook [("waist", (0:ℚ)), ("hips", 0)] "waist" = some 0 := by
    simp only [alook, String.reduceEq, reduceIte]
  simp only [estimate_initial_phenotypes, hb, hhp, hwa, Option.getD_some, Option.getD_none]
  rw [if_pos (by norm_num : (170:ℚ) ≠ 0)]
  rw [pyDiv_fin_fin _ _ (by norm_num : (3:ℚ) ≠ 0),
    show ((0:ℚ) + 0 + 0) / 3 = 0 by norm_num,
    show pyDiv (.fin ((170:ℚ) / 100)) (.fin 0) = PyFloat.inf by norm_num [pyDiv],
    show pyMul (PyFloat.fin 0) PyFloat.inf = PyFloat.nan by norm_num [pyMul]]
  rfl

/-- C3 (amended): every rational field of the heuristic initial phenotype
estimate lies in `[0,1]` — height is clamped into `[0.05, 0.95]` — and
the weight field is either NaN or a finite value clamped into
`[0.1, 0.95]`; whenever the landmark mesh height is nonzero the weight is
a finite value in `[0.1, 0.95]` (the NaN escape arises only at zero mesh
height, where the scale division produces an infinity that `np.clip`
cannot recover from a zero average circumference); and the phenotype
fields of the final `FittingResult`, taken from the external fitter's
output, lie in `[0,1]` whenever that output satisfies its interface
contract. -/
theorem estimate_initial_phenotypes_bounds :
    (∀ (lm : LandmarksIn) (uh : Option ℚ) (ug : Option String),
      (0 ≤ (estimate_initial_phenotypes lm uh ug).gender ∧
        (estimate_initial_phenotypes lm uh ug).gender ≤ 1) ∧
      (0 ≤ (estimate_initial_phenotypes lm uh ug).age ∧
        (estimate_initial_phenotypes lm uh ug).age ≤ 1) ∧
      (0.05 ≤ (estimate_initial_phenotypes lm uh ug).height ∧
        (estimate_initial_phenotypes lm uh ug).height ≤ 0.95) ∧
      (0 ≤ (estimate_initial_phenotypes lm uh ug).muscle ∧
        (estimate_initial_phenotypes lm uh ug).muscle ≤ 1) ∧
      (0 ≤ (estimate_initial_phenotypes lm uh ug).proportions ∧
        (estimate_initial_phenotypes lm uh ug).proportions ≤ 1) ∧
      ((estimate_initial_phenotypes lm uh ug).weight = PyFloat.nan ∨
        ∃ q : ℚ, (estimate_initial_phenotypes lm uh ug).weight = PyFloat.fin q ∧
          0.1 ≤ q ∧ q ≤ 0.95)) ∧
    (∀ (lm : LandmarksIn) (uh : Option ℚ) (ug : Option String),
      lm.height?.getD 1.7 ≠ 0 →
      ∃ q : ℚ, (estimate_initial_phenotypes lm uh ug).weight = PyFloat.fin q ∧
        0.1 ≤ q ∧ q ≤ 0.95) ∧
    (∀ p : Phenotypes, RegressorContract p →
      RegressorContract (fittingResultPhenotypes p)) := by
  refine ⟨?_, ?_, ?_⟩
  · intro lm uh ug
    have hgender : (estimate_initial_phenotypes lm uh ug).gender = 0 ∨
        (estimate_initial_phenotypes lm uh ug).gender = 1 := by
      simp only [estimate_initial_phenotypes]
      rcases ug with _ | g
      · exact Or.inl rfl
      · by_cases hg : g ≠ "" ∧ g.toLower = "female" <;> simp [hg]
    have hheight : 0.05 ≤ (estimate_initial_phenotypes lm uh ug).height ∧
        (estimate_initial_phenotypes lm uh ug).height ≤ 0.95 := by
      simp only [estimate_initial_phenotypes]
      rcases uh with _ | h
      · norm_num
      · simp only
        by_cases hz : h = 0
        · subst hz; norm_num
        · rw [if_pos hz]; exact clipQ_mem _ _ _ (by norm_num)
    have hweight : (estimate_initial_phenotypes lm uh ug).weight = PyFloat.nan ∨
        ∃ q : ℚ, (estimate_initial_phenotypes lm uh ug).weight = PyFloat.fin q ∧
          0.1 ≤ q ∧ q ≤ 0.95 := by
      simp only [estimate_initial_phenotypes]
      rcases hh : alook lm.circs "hips" with _ | cv <;>
        rcases hw : alook lm.circs "waist" with _ | wv <;>
        simp only
      · exact Or.inr ⟨0.5, rfl, by norm_num, by norm_num⟩
      · exact Or.inr ⟨0.5, rfl, by norm_num, by norm_num⟩
      · exact Or.inr ⟨0.5, rfl, by norm_num, by norm_num⟩
      · rcases uh with _ | h
        · exact Or.inr ⟨0.5, rfl, by norm_num, by norm_num⟩
        · simp only
          by_cases hz : h = 0
          · subst hz
            rw [if_neg (fun hc => hc rfl)]
            exact Or.inr ⟨0.5, rfl, by norm_num, by norm_num⟩
          · rw [if_pos hz]
            exact pyClip_mem _ _ _ (by norm_num)
    have hprop : 0 ≤ (estimate_initial_phenotypes lm uh ug).proportions ∧
        (estimate_initial_phenotypes lm uh ug).proportions ≤ 1 := by
      simp only [estimate_initial_phenotypes]
      rcases alook lm.circs "waist" with _ | wv <;>
        rcases alook lm.circs "hips" with _ | hv <;> simp only
      · norm_num
      · norm_num
      · norm_num
      · by_cases h0 : hv > 0 <;> by_cases h1 : wv / hv < 0.75 <;>
          by_cases h2 : wv / hv > 0.85 <;>
          simp only [h0, h1, h2, if_true, if_false, ite_true, ite_false] <;> norm_num
    refine ⟨?_, ?_, hheight, ?_, hprop, hweight⟩
    · rcases hgender with h | h <;> rw [h] <;> norm_num
    · have h : (estimate_initial_phenotypes lm uh ug).age = 0.4 := rfl
      rw [h]; norm_num
    · have h : (estimate_initial_phenotypes lm uh ug).muscle = 0.5 := rfl
      rw [h]; norm_num
  · intro lm uh ug hm
    simp only [estimate_initial_phenotypes]
    rcases hh : alook lm.circs "hips" with _ | cv <;>
      rcases hw : alook lm.circs "waist" with _ | wv <;>
      simp only
    · exact ⟨0.5, rfl, by norm_num, by norm_num⟩
    · exact ⟨0.5, rfl, by norm_num, by norm_num⟩
    · exact ⟨0.5, rfl, by norm_num, by norm_num⟩
    · rcases uh with _ | h
      · exact ⟨0.5, rfl, by norm_num, by norm_num⟩
      · simp only
        by_cases hz : h = 0
        · subst hz
          rw [if_neg (fun hc => hc rfl)]
          exact ⟨0.5, rfl, by norm_num, by norm_num⟩
        · rw [if_pos hz, pyDiv_fin_fin _ _ (by norm_num : (3:ℚ) ≠ 0),
            pyDiv_fin_fin _ _ hm, pyMul_fin_fin, pyMul_fin_fin, pySub_fin_fin,
            pyDiv_fin_fin _ _ (by norm_num : (60:ℚ) ≠ 0), pyAdd_fin_fin, pyClip_fin]
          exact ⟨_, rfl, le_max_left _ _,
            max_le (by norm_num) (min_le_right _ _)⟩
  · intro p hp
    exact hp

/-- Witness for `estimate_initial_phenotypes_bounds`: the nonzero-mesh-height
part applied at a concrete landmark set (waist 70, hips 90, mesh height 1.7,
user height 165 cm), and the regressor-contract part applied at the neutral
phenotype vector. -/
theorem estimate_initial_phenotypes_bounds_witness :
    (∃ q : ℚ, (estimate_initial_phenotypes ⟨[("waist", 70), ("hips", 90)],
        some (17/10)⟩ (some 165) none).weight = PyFloat.fin q ∧
        0.1 ≤ q ∧ q ≤ 0.95) ∧
      RegressorContract (fittingResultPhenotypes ⟨0.5, 0.5, 0.5, 0.5, 0.5, 0.5⟩) :=
  ⟨estimate_initial_phenotypes_bounds.2.1 ⟨[("waist", 70), ("hips", 90)], some (17/10)⟩
      (some 165) none (by norm_num),
    estimate_initial_phenotypes_bounds.2.2 ⟨0.5, 0.5, 0.5, 0.5, 0.5, 0.5⟩
      (by norm_num [RegressorContract])⟩

/-- C7 counterexample: on a zero-vertex mesh the fitting entry point fails
inside the first numpy reduction with a plain `ValueError`, not with the
dedicated `InvalidMeshError` the claim names (no such class exists in the
code base). -/
theorem analyze_empty_mesh_not_invalid_mesh_error :
    analyze_from_vertices_normalize [] = Except.error PyError.valueError ∧
    PyError.valueError ≠ PyError.invalidMeshError := by
  exact ⟨rfl, by decide⟩

/-- C7 (amended): a zero-vertex mesh makes the entry point fail (it does
not proceed), but with numpy's generic empty-reduction `ValueError`; any
non-empty vertex list passes orientation normalization without error. -/
theorem analyze_empty_mesh_fails :
    analyze_from_vertices_normalize [] = Except.error PyError.valueError ∧
    (∀ (v : Q3) (vs : List Q3), ∃ out,
      analyze_from_vertices_normalize (v :: vs) = Except.ok out) := by
  refine ⟨rfl, ?_⟩
  intro v vs
  simp only [analyze_from_vertices_normalize, npMax, npMin, List.map_cons, bind, Except.bind]
  split
  · exact ⟨_, rfl⟩
  · exact ⟨_, rfl⟩

/-- `kpJoints0` on a 70-element centred list, written out. -/
lemma kpJoints0_eq (kpf : List Q3) (h70 : kpf.length = 70) :
    kpJoints0 kpf =
      [("head", kpf.getD 0 (0,0,0)), ("shoulder_l", kpf.getD 5 (0,0,0)),
       ("shoulder_r", kpf.getD 6 (0,0,0)), ("elbow_l", kpf.getD 7 (0,0,0)),
       ("elbow_r", kpf.getD 8 (0,0,0)), ("hip_l", kpf.getD 9 (0,0,0)),
       ("hip_r", kpf.getD 10 (0,0,0)), ("knee_l", kpf.getD 11 (0,0,0)),
       ("knee_r", kpf.getD 12 (0,0,0)), ("ankle_l", kpf.getD 13 (0,0,0)),
       ("ankle_r", kpf.getD 14 (0,0,0)), ("wrist_l", kpf.getD 62 (0,0,0)),
       ("wrist_r", kpf.getD 41 (0,0,0)), ("neck", kpf.getD 69 (0,0,0)),
       ("olecranon_l", kpf.getD 63 (0,0,0)), ("olecranon_r", kpf.getD 64 (0,0,0)),
       ("acromion_l", kpf.getD 67 (0,0,0)), ("acromion_r", kpf.getD 68 (0,0,0))] := by
  simp [kpJoints0, kpMapping, h70]

lemma getD_map_of_lt (l : List Q3) (f : Q3 → Q3) (i : Nat) (h : i < l.length) (d : Q3) :
    (l.map f).getD i d = f (l.getD i d) := by
  have h1 : l[i]? = some l[i] := List.getElem?_eq_getElem h
  simp [List.getD_eq_getElem?_getD, List.getElem?_map, h1]

/-- All the association-list lookups of the extractor on a 70-keypoint
input, written against the centred keypoint list. -/
lemma extract_joints_lookups (kp : List Q3) (hlen : kp.length = 70) :
    alook (extract_joints_from_keypoints kp).1 "pelvis" = some (0, 0, 0) ∧
    alook (extract_joints_from_keypoints kp).1 "neck" = some (centeredKp kp 69) ∧
    alook (extract_joints_from_keypoints kp).1 "head" =
      some (nudgeY (centeredKp kp 0)) ∧
    alook (extract_joints_from_keypoints kp).1 "shoulder_l" =
      some (centeredKp kp 5) ∧
    alook (extract_joints_from_keypoints kp).1 "shoulder_r" =
      some (centeredKp kp 6) ∧
    alook (extract_joints_from_keypoints kp).1 "hip_l" = some (centeredKp kp 9) ∧
    alook (extract_joints_from_keypoints kp).1 "hip_r" = some (centeredKp kp 10) := by
  have ht : (kp.map kpTransform).length = 70 := by simp [hlen]
  have h70 : (kpCentered kp).length = 70 := by simp [kpCentered, hlen]
  have hpel : kpPelvisCenter (kp.map kpTransform) =
      q3smul (1/2) (q3add ((kp.map kpTransform).getD 9 (0,0,0))
        ((kp.map kpTransform).getD 10 (0,0,0))) := by
    rw [kpPelvisCenter, if_pos (by rw [ht]; norm_num)]
  have hread : ∀ i : Nat, i < 70 → (kpCentered kp).getD i (0,0,0) = centeredKp kp i := by
    intro i hi
    rw [kpCentered, getD_map_of_lt _ _ i (by rw [ht]; exact hi), hpel, centeredKp]
  have h0 := kpJoints0_eq (kpCentered kp) h70
  have hmid : q3smul (1/2) (q3add (centeredKp kp 9) (centeredKp kp 10)) = (0, 0, 0) := by
    simp only [centeredKp, q3smul, q3add, q3sub, Prod.ext_iff]
    refine ⟨by ring, by ring, by ring⟩
  simp only [extract_joints_from_keypoints, kpJoints1, h0,
    hread 0 (by norm_num), hread 5 (by norm_num), hread 6 (by norm_num),
    hread 7 (by norm_num), hread 8 (by norm_num), hread 9 (by norm_num),
    hread 10 (by norm_num), hread 11 (by norm_num), hread 12 (by norm_num),
    hread 13 (by norm_num), hread 14 (by norm_num), hread 41 (by norm_num),
    hread 62 (by norm_num), hread 63 (by norm_num), hread 64 (by norm_num),
    hread 67 (by norm_num), hread 68 (by norm_num), hread 69 (by norm_num)]
  simp only [alook, aset, List.cons_append, List.nil_append, String.reduceEq, reduceIte]
  norm_num [hmid]

/-- C8 counterexample: on `kpC8` the extracted neck joint is the transformed
index-69 keypoint `(1, 1, -1)`, while both shoulder joints (and hence their
midpoint) are zero: the extractor does not derive the neck as the shoulder
midpoint. -/
theorem keypoint_neck_not_shoulder_midpoint_cex :
    alook (extract_joints_from_keypoints kpC8).1 "neck" = some (1, 1, -1) ∧
    alook (extract_joints_from_keypoints kpC8).1 "shoulder_l" = some (0, 0, 0) ∧
    alook (extract_joints_from_keypoints kpC8).1 "shoulder_r" = some (0, 0, 0) ∧
    ((1 : ℚ), (1 : ℚ), (-1 : ℚ)) ≠ q3smul (1/2) (q3add (0, 0, 0) (0, 0, 0)) := by
  have hlen : kpC8.length = 70 := by simp [kpC8]
  obtain ⟨_, hneck, _, hsl, hsr, _, _⟩ := extract_joints_lookups kpC8 hlen
  have hmap : kpC8.map kpTransform =
      List.replicate 69 (kpTransform (0, 0, 0)) ++ [kpTransform (1, 1, 1)] := by
    simp [kpC8]
  have hget : ∀ i : Nat, i < 69 →
      (kpC8.map kpTransform).getD i (0,0,0) = kpTransform (0, 0, 0) := by
    intro i hi
    rw [hmap, List.getD_eq_getElem?_getD,
      List.getElem?_append_left (by simpa using hi),
      List.getElem?_replicate_of_lt hi]
    rfl
  have hget69 : (kpC8.map kpTransform).getD 69 (0,0,0) = kpTransform (1, 1, 1) := by
    rw [hmap, List.getD_eq_getElem?_getD, List.getElem?_append_right (by simp)]
    simp
  have h69 : centeredKp kpC8 69 = (1, 1, -1) := by
    rw [centeredKp]
    rw [hget69, hget 9 (by norm_num), hget 10 (by norm_num)]
    norm_num [kpTransform, q3sub, q3add, q3smul]
  have h5 : centeredKp kpC8 5 = (0, 0, 0) := by
    rw [centeredKp]
    rw [hget 5 (by norm_num), hget 9 (by norm_num), hget 10 (by norm_num)]
    norm_num [kpTransform, q3sub, q3add, q3smul]
  have h6 : centeredKp kpC8 6 = (0, 0, 0) := by
    rw [centeredKp]
    rw [hget 6 (by norm_num), hget 9 (by norm_num), hget 10 (by norm_num)]
    norm_num [kpTransform, q3sub, q3add, q3smul]
  refine ⟨h69 ▸ hneck, h5 ▸ hsl, h6 ▸ hsr, ?_⟩
  norm_num [q3smul, q3add, Prod.ext_iff]

/-- C8 (amended): for every 70-keypoint input the extractor centres all
keypoints on the mean of the two hip keypoints; the derived pelvis is the
hip midpoint and hence the zero vector; the neck is read directly from
keypoint index 69 (not derived from the shoulders); and the head is the
centred index-0 keypoint nudged by `+0.10` along the second (depth) axis. -/
theorem keypoint_extractor_spec (kp : List Q3) (hlen : kp.length = 70) :
    alook (extract_joints_from_keypoints kp).1 "pelvis" = some (0, 0, 0) ∧
    alook (extract_joints_from_keypoints kp).1 "neck" =
      some (centeredKp kp 69) ∧
    alook (extract_joints_from_keypoints kp).1 "head" =
      some (nudgeY (centeredKp kp 0)) ∧
    alook (extract_joints_from_keypoints kp).1 "shoulder_l" =
      some (centeredKp kp 5) ∧
    alook (extract_joints_from_keypoints kp).1 "shoulder_r" =
      some (centeredKp kp 6) ∧
    alook (extract_joints_from_keypoints kp).1 "hip_l" =
      some (centeredKp kp 9) ∧
    alook (extract_joints_from_keypoints kp).1 "hip_r" =
      some (centeredKp kp 10) :=
  extract_joints_lookups kp hlen

/-- Witness for `keypoint_extractor_spec` at the concrete 70-keypoint
input `kpC8`. -/
theorem keypoint_extractor_spec_witness :
    alook (extract_joints_from_keypoints kpC8).1 "pelvis" = some (0, 0, 0) :=
  (keypoint_extractor_spec kpC8 (by simp [kpC8])).1

lemma dot3_self_nonneg (v : V3) : 0 ≤ dot3 v v := by
  have h0 := mul_self_nonneg (v 0)
  have h1 := mul_self_nonneg (v 1)
  have h2 := mul_self_nonneg (v 2)
  unfold dot3; linarith

lemma dot3_smul_smul (a : ℝ) (u v : V3) : dot3 (a • u) (a • v) = a ^ 2 * dot3 u v := by
  simp [dot3, Pi.smul_apply, smul_eq_mul]; ring

lemma dot3_smul_left (a : ℝ) (u v : V3) : dot3 (a • u) v = a * dot3 u v := by
  simp [dot3, Pi.smul_apply, smul_eq_mul]; ring

lemma norm3_smul (a : ℝ) (v : V3) : norm3 (a • v) = |a| * norm3 v := by
  unfold norm3
  rw [dot3_smul_smul, Real.sqrt_mul (sq_nonneg a), Real.sqrt_sq_eq_abs]

lemma norm3_sq (v : V3) : norm3 v ^ 2 = dot3 v v :=
  Real.sq_sqrt (dot3_self_nonneg v)

lemma norm3_zero : norm3 0 = 0 := by
  unfold norm3 dot3; simp

lemma norm3_nonneg (v : V3) : 0 ≤ norm3 v := Real.sqrt_nonneg _

/-- Lagrange's identity for the cross product. -/
lemma lagrange (u t : V3) :
    dot3 (cross3 u t) (cross3 u t) = dot3 u u * dot3 t t - dot3 u t ^ 2 := by
  simp only [dot3, cross3, Matrix.cons_val_zero, Matrix.cons_val_one, Matrix.head_cons,
    Matrix.cons_val_two, Matrix.tail_cons]
  ring

lemma dot3_cross_left (u t : V3) : dot3 (cross3 u t) u = 0 := by
  simp only [dot3, cross3, Matrix.cons_val_zero, Matrix.cons_val_one, Matrix.head_cons,
    Matrix.cons_val_two, Matrix.tail_cons]
  ring

lemma dot3_cross_right (u t : V3) : dot3 (cross3 u t) t = 0 := by
  simp only [dot3, cross3, Matrix.cons_val_zero, Matrix.cons_val_one, Matrix.head_cons,
    Matrix.cons_val_two, Matrix.tail_cons]
  ring

lemma cross3_smul_left (a : ℝ) (u v : V3) : cross3 (a • u) v = a • cross3 u v := by
  funext i
  fin_cases i <;>
    simp [cross3, Pi.smul_apply, smul_eq_mul] <;> ring

/-- The vector triple product `(u × t) × u = (u·u) t − (u·t) u`. -/
lemma cross3_triple (u t : V3) :
    cross3 (cross3 u t) u = fun i => dot3 u u * t i - dot3 u t * u i := by
  funext i
  fin_cases i <;>
    simp [cross3, dot3, Matrix.cons_val_zero, Matrix.cons_val_one, Matrix.head_cons,
      Matrix.cons_val_two, Matrix.tail_cons] <;> ring

/-- The rotation matrix `1 + s K + (1−c) K²` is a proper rotation whenever
`s² + c² = 1` and the axis is a unit vector. -/
lemma rotMat_isRot (s c : ℝ) (k : V3) (hsc : s ^ 2 + c ^ 2 = 1) (hk : dot3 k k = 1) :
    isRot (1 + s • crossMat k + (1 - c) • (crossMat k * crossMat k)) := by
  have hk' : k 0 * k 0 + k 1 * k 1 + k 2 * k 2 = 1 := hk
  constructor
  · ext i j
    fin_cases i <;> fin_cases j <;>
      simp only [Matrix.transpose_apply, Matrix.mul_apply, Fin.sum_univ_three,
        Matrix.add_apply, Matrix.smul_apply, Matrix.one_fin_three, crossMat,
        Matrix.cons_val', Matrix.cons_val_zero, Matrix.cons_val_one, Matrix.head_cons,
        Matrix.head_fin_const, Matrix.cons_val_fin_one, Matrix.empty_val',
        Matrix.cons_val_two, Matrix.tail_cons, Matrix.of_apply, smul_eq_mul,
        Fin.isValue, Fin.zero_eta, Fin.mk_one]
    · norm_num
      linear_combination (-(k 0 * k 0 - (k 0 ^ 2 + k 1 ^ 2 + k 2 ^ 2))) * hsc +
        (-(k 0 * k 0 - (k 0 ^ 2 + k 1 ^ 2 + k 2 ^ 2)) * (1 - c) ^ 2) * hk'
    · norm_num
      linear_combination (-(k 0 * k 1)) * hsc + (-(k 0 * k 1) * (1 - c) ^ 2) * hk'
    · norm_num
      linear_combination (-(k 0 * k 2)) * hsc + (-(k 0 * k 2) * (1 - c) ^ 2) * hk'
    · norm_num
      linear_combination (-(k 0 * k 1)) * hsc + (-(k 0 * k 1) * (1 - c) ^ 2) * hk'
    · norm_num
      linear_combination (-(k 1 * k 1 - (k 0 ^ 2 + k 1 ^ 2 + k 2 ^ 2))) * hsc +
        (-(k 1 * k 1 - (k 0 ^ 2 + k 1 ^ 2 + k 2 ^ 2)) * (1 - c) ^ 2) * hk'
    · norm_num
      linear_combination (-(k 1 * k 2)) * hsc + (-(k 1 * k 2) * (1 - c) ^ 2) * hk'
    · norm_num
      linear_combination (-(k 0 * k 2)) * hsc + (-(k 0 * k 2) * (1 - c) ^ 2) * hk'
    · norm_num
      linear_combination (-(k 1 * k 2)) * hsc + (-(k 1 * k 2) * (1 - c) ^ 2) * hk'
    · norm_num
      linear_combination (-(k 2 * k 2 - (k 0 ^ 2 + k 1 ^ 2 + k 2 ^ 2))) * hsc +
        (-(k 2 * k 2 - (k 0 ^ 2 + k 1 ^ 2 + k 2 ^ 2)) * (1 - c) ^ 2) * hk'
  · simp only [Matrix.det_fin_three, Matrix.add_apply, Matrix.smul_apply,
      Matrix.mul_apply, Fin.sum_univ_three, Matrix.one_fin_three, crossMat,
      Matrix.cons_val', Matrix.cons_val_zero, Matrix.cons_val_one, Matrix.head_cons,
      Matrix.head_fin_const, Matrix.cons_val_fin_one, Matrix.empty_val',
      Matrix.cons_val_two, Matrix.tail_cons, Matrix.of_apply, smul_eq_mul,
      Fin.isValue, Fin.zero_eta, Fin.mk_one]
    norm_num
    linear_combination ((1 - c) ^ 2 * (k 0 ^ 2 + k 1 ^ 2 + k 2 ^ 2)) * hk' +
      (k 0 ^ 2 + k 1 ^ 2 + k 2 ^ 2) * hsc

/-- Action of `1 + s K + (1−c) K²` on a vector orthogonal to the unit
axis: rotation by the angle in the plane orthogonal to the axis. -/
lemma rotMat_action (s c : ℝ) (k u : V3) (hkk : dot3 k k = 1) (hku : dot3 k u = 0) :
    (1 + s • crossMat k + (1 - c) • (crossMat k * crossMat k)) *ᵥ u =
      fun i => c * u i + s * cross3 k u i := by
  have hkk' : k 0 * k 0 + k 1 * k 1 + k 2 * k 2 = 1 := hkk
  have hku' : k 0 * u 0 + k 1 * u 1 + k 2 * u 2 = 0 := hku
  funext i
  fin_cases i <;>
    simp only [Matrix.mulVec, Matrix.dotProduct, Fin.sum_univ_three, Matrix.add_apply,
      Matrix.smul_apply, Matrix.one_fin_three, Matrix.mul_apply, crossMat,
      Matrix.cons_val', Matrix.cons_val_zero, Matrix.cons_val_one, Matrix.head_cons,
      Matrix.head_fin_const, Matrix.cons_val_fin_one, Matrix.empty_val',
      Matrix.cons_val_two, Matrix.tail_cons, Matrix.of_apply, smul_eq_mul, cross3,
      Fin.isValue, Fin.zero_eta, Fin.mk_one, Fin.reduceFinMk]
  · norm_num
    linear_combination ((1 - c) * k 0) * hku' - ((1 - c) * u 0) * hkk'
  · norm_num
    linear_combination ((1 - c) * k 1) * hku' - ((1 - c) * u 1) * hkk'
  · norm_num
    linear_combination ((1 - c) * k 2) * hku' - ((1 - c) * u 2) * hkk'

lemma isRot_one : isRot (1 : M3) := by
  constructor
  · simp
  · simp

lemma isRot_mul {A B : M3} (hA : isRot A) (hB : isRot B) : isRot (A * B) := by
  constructor
  · rw [Matrix.transpose_mul]
    calc Bᵀ * Aᵀ * (A * B) = Bᵀ * (Aᵀ * A) * B := by noncomm_ring
      _ = Bᵀ * B := by rw [hA.1]; noncomm_ring
      _ = 1 := hB.1
  · rw [Matrix.det_mul, hA.2, hB.2]; norm_num

/-- `scipy` builds the Rodrigues matrix of any rotation vector; the result
is always a proper rotation. -/
lemma rodrigues_isRot (v : V3) : isRot (rodrigues v) := by
  unfold rodrigues
  split
  · exact isRot_one
  · rename_i h
    have hpos : 0 < dot3 v v := by
      rcases lt_or_eq_of_le (dot3_self_nonneg v) with h' | h'
      · exact h'
      · exact absurd (by unfold norm3; rw [← h']; simp) h
    have hn : 0 < norm3 v := Real.sqrt_pos.mpr hpos
    have hk : dot3 ((1 / norm3 v) • v) ((1 / norm3 v) • v) = 1 := by
      rw [dot3_smul_smul]
      have h2 := norm3_sq v
      field_simp
      linarith [h2]
    exact rotMat_isRot (Real.sin (norm3 v)) (Real.cos (norm3 v))
      ((1 / norm3 v) • v) (Real.sin_sq_add_cos_sq (norm3 v)) hk

lemma alook_append_singleton_none {α : Type} (l : List (String × α)) (k k' : String)
    (v : α) (h : alook l k = none) (hne : k' ≠ k) : alook (l ++ [(k', v)]) k = none := by
  induction l with
  | nil => simp [alook, hne]
  | cons e t ih =>
      rw [List.cons_append, alook]
      rw [alook] at h
      by_cases he : e.1 = k
      · simp [he] at h
      · rw [if_neg he] at h ⊢
        exact ih h

/-- A chain step either leaves the rotation dict unchanged or appends one
entry for its own bone. -/
lemma solveChainStep_rotations (labels : List String) (rests : List M3)
    (src tgt : List (String × V3)) (st : SolveState) (ch : ChainSpec) :
    (solveChainStep labels rests src tgt st ch).rotations = st.rotations ∨
    ∃ v, (solveChainStep labels rests src tgt st ch).rotations =
      st.rotations ++ [(ch.bone, v)] := by
  rcases h1 : alook src ch.startJoint with _ | ss <;>
    rcases h2 : alook src ch.endJoint with _ | se <;>
    rcases h3 : alook tgt ch.startJoint with _ | ts <;>
    rcases h4 : alook tgt ch.endJoint with _ | te <;>
    simp only [solveChainStep, h1, h2, h3, h4]
  all_goals try exact Or.inl trivial
  split
  · exact Or.inr ⟨_, rfl⟩
  · exact Or.inl rfl

/-- A chain with a missing start or end joint is skipped entirely. -/
lemma solveChainStep_skip (labels : List String) (rests : List M3)
    (src tgt : List (String × V3)) (st : SolveState) (ch : ChainSpec)
    (h : alook src ch.startJoint = none ∨ alook src ch.endJoint = none ∨
      alook tgt ch.startJoint = none ∨ alook tgt ch.endJoint = none) :
    solveChainStep labels rests src tgt st ch = st := by
  rcases h1 : alook src ch.startJoint with _ | ss <;>
    rcases h2 : alook src ch.endJoint with _ | se <;>
    rcases h3 : alook tgt ch.startJoint with _ | ts <;>
    rcases h4 : alook tgt ch.endJoint with _ | te <;>
    simp only [solveChainStep, h1, h2, h3, h4]
  rcases h with h | h | h | h <;> simp_all

lemma alook_root_heading (src tgt : List (String × V3)) (b : String)
    (hb : b ≠ "root") : alook (solve_root_heading src tgt) b = none := by
  have hb' : ¬ ("root" = b) := fun h => hb h.symm
  unfold solve_root_heading
  rcases alook src "hip_l" with _ | sl <;> rcases alook src "hip_r" with _ | sr <;>
    rcases alook tgt "hip_l" with _ | tl <;> rcases alook tgt "hip_r" with _ | tr <;>
    simp [alook, hb']

/-- Folding the chain loop never creates an entry for a bone all of whose
chains are skipped. -/
lemma foldl_rotations_none (labels : List String) (rests : List M3)
    (src tgt : List (String × V3)) (b : String) :
    ∀ (cs : List ChainSpec) (st : SolveState),
      alook st.rotations b = none →
      (∀ ch ∈ cs, ch.bone = b →
        alook src ch.startJoint = none ∨ alook src ch.endJoint = none ∨
        alook tgt ch.startJoint = none ∨ alook tgt ch.endJoint = none) →
      alook ((cs.foldl (solveChainStep labels rests src tgt) st)).rotations b = none := by
  intro cs
  induction cs with
  | nil => intro st h0 _; simpa using h0
  | cons ch t ih =>
      intro st h0 hall
      rw [List.foldl_cons]
      apply ih
      · by_cases hb : ch.bone = b
        · rw [solveChainStep_skip labels rests src tgt st ch (hall ch (List.mem_cons_self ch t) hb)]
          exact h0
        · rcases solveChainStep_rotations labels rests src tgt st ch with heq | ⟨v, heq⟩
          · rw [heq]; exact h0
          · rw [heq]; exact alook_append_singleton_none _ _ _ _ h0 hb
      · intro ch' hch' hb'
        exact hall ch' (List.mem_cons_of_mem ch hch') hb'

/-- C6: a chain whose start or end joint is missing from either joint set
contributes no rotation entry for its bone (and the solver is total — it
returns normally); and the pose-application loop poses every bone without
a rotation entry with the identity transform. -/
theorem compute_pose_skips_missing_chains :
    (∀ (labels : List String) (rests : List M3) (src tgt : List (String × V3))
      (ch : ChainSpec), ch ∈ chains →
      (alook src ch.startJoint = none ∨ alook src ch.endJoint = none ∨
       alook tgt ch.startJoint = none ∨ alook tgt ch.endJoint = none) →
      alook (compute_pose labels rests src tgt) ch.bone = none) ∧
    (∀ (labels : List String) (rotations : List (String × V3)) (name : String),
      alook rotations name = none → poseParamFor labels rotations name = 1) := by
  constructor
  · intro labels rests src tgt ch hch hmiss
    unfold compute_pose
    apply foldl_rotations_none
    · apply alook_root_heading
      simp only [chains, List.mem_cons, List.not_mem_nil, or_false] at hch
      rcases hch with rfl | rfl | rfl | rfl | rfl | rfl | rfl | rfl | rfl <;> decide
    · intro ch' hch' hbone
      simp only [chains, List.mem_cons, List.not_mem_nil, or_false] at hch hch'
      rcases hch with rfl | rfl | rfl | rfl | rfl | rfl | rfl | rfl | rfl <;>
        rcases hch' with rfl | rfl | rfl | rfl | rfl | rfl | rfl | rfl | rfl <;>
        first
        | exact hmiss
        | simp at hbone
  · intro labels rotations name h
    simp [poseParamFor, h]

/-- Witness for `compute_pose_skips_missing_chains`: with empty joint
dictionaries the left-arm chain is skipped, and an empty rotation dict
poses `upperarm01.L` with the identity. -/
theorem compute_pose_skips_missing_chains_witness :
    alook (compute_pose ["root"] [] [] []) "upperarm01.L" = none ∧
    poseParamFor ["root"] [] "upperarm01.L" = 1 := by
  constructor
  · exact compute_pose_skips_missing_chains.1 ["root"] [] [] []
      ⟨"shoulder_l", "elbow_l", "upperarm01.L", none⟩ (by simp [chains]) (Or.inl rfl)
  · exact compute_pose_skips_missing_chains.2 ["root"] [] "upperarm01.L" rfl

lemma cross3_smul_right (a : ℝ) (u v : V3) : cross3 u (a • v) = a • cross3 u v := by
  funext i
  fin_cases i <;>
    simp [cross3, Pi.smul_apply, smul_eq_mul] <;> ring

/-- Non-degenerate branch of the local solve: for unit directions whose
cross product is not near zero, the Rodrigues matrix of the solved rotation
vector maps the current direction exactly onto the target direction. -/
lemma solveLocalRotvec_maps (u t : V3) (huu : dot3 u u = 1) (htt : dot3 t t = 1)
    (hnd : ¬ norm3 (cross3 u t) < 1e-6) :
    rodrigues (solveLocalRotvec u t) *ᵥ u = t := by
  have hge : (1e-6 : ℝ) ≤ norm3 (cross3 u t) := le_of_not_lt hnd
  have hnpos : (0 : ℝ) < norm3 (cross3 u t) := lt_of_lt_of_le (by norm_num) hge
  have hn2 : norm3 (cross3 u t) ^ 2 = dot3 (cross3 u t) (cross3 u t) := norm3_sq _
  have hL : dot3 (cross3 u t) (cross3 u t) = 1 - dot3 u t ^ 2 := by
    rw [lagrange, huu, htt]; ring
  have hd2 : dot3 u t ^ 2 < 1 := by nlinarith
  have hdle : dot3 u t ≤ 1 := by nlinarith
  have hdge : -1 ≤ dot3 u t := by nlinarith
  have hclamp : clampR (dot3 u t) (-1) 1 = dot3 u t := by
    unfold clampR; rw [min_eq_left hdle, max_eq_right hdge]
  simp only [solveLocalRotvec]
  rw [if_neg hnd, hclamp]
  have hcos : Real.cos (Real.arccos (dot3 u t)) = dot3 u t := Real.cos_arccos hdge hdle
  have hsin : Real.sin (Real.arccos (dot3 u t)) = norm3 (cross3 u t) := by
    rw [Real.sin_arccos, ← hL, ← hn2, Real.sqrt_sq (le_of_lt hnpos)]
  have hangpos : 0 < Real.arccos (dot3 u t) := Real.arccos_pos.mpr (by nlinarith)
  have hka : dot3 ((1 / norm3 (cross3 u t)) • cross3 u t)
      ((1 / norm3 (cross3 u t)) • cross3 u t) = 1 := by
    rw [dot3_smul_smul, ← hn2]; field_simp
  have hkau : dot3 ((1 / norm3 (cross3 u t)) • cross3 u t) u = 0 := by
    rw [dot3_smul_left, dot3_cross_left]; ring
  have hna : norm3 ((1 / norm3 (cross3 u t)) • cross3 u t) = 1 := by
    rw [norm3_smul, abs_of_pos (by positivity)]
    field_simp
  have hng : norm3 (Real.arccos (dot3 u t) • ((1 / norm3 (cross3 u t)) • cross3 u t)) =
      Real.arccos (dot3 u t) := by
    rw [norm3_smul, hna, abs_of_pos hangpos]; ring
  rw [rodrigues, if_neg (by rw [hng]; exact ne_of_gt hangpos)]
  simp only [hng]
  have haxis : (1 / Real.arccos (dot3 u t)) •
      (Real.arccos (dot3 u t) • ((1 / norm3 (cross3 u t)) • cross3 u t)) =
      (1 / norm3 (cross3 u t)) • cross3 u t := by
    rw [smul_smul, one_div, inv_mul_cancel₀ (ne_of_gt hangpos), one_smul]
  rw [haxis, rotMat_action _ _ _ _ hka hkau]
  funext i
  rw [hcos, hsin, cross3_smul_left, cross3_triple]
  simp only [Pi.smul_apply, smul_eq_mul]
  rw [huu]
  have hnne : norm3 (cross3 u t) ≠ 0 := ne_of_gt hnpos
  field_simp

/-- Aligned degenerate branch: near-zero cross product with positive dot
product gives the zero rotation vector and the identity matrix. -/
lemma solveLocalRotvec_aligned (u t : V3) (hdeg : norm3 (cross3 u t) < 1e-6)
    (hdot : 0 < dot3 u t) :
    solveLocalRotvec u t = 0 ∧ rodrigues (solveLocalRotvec u t) = 1 := by
  have h1 : solveLocalRotvec u t = 0 := by
    simp only [solveLocalRotvec]
    rw [if_pos hdeg, if_pos hdot]
  exact ⟨h1, by rw [h1, rodrigues, if_pos norm3_zero]⟩

/-- Antiparallel degenerate branch: a rotation vector of length `π`
(a 180° rotation) about an axis orthogonal to the current direction. -/
lemma solveLocalRotvec_antiparallel (u t : V3) (huu : dot3 u u = 1)
    (hdeg : norm3 (cross3 u t) < 1e-6) (hdot : ¬ 0 < dot3 u t) :
    norm3 (solveLocalRotvec u t) = Real.pi ∧ dot3 (solveLocalRotvec u t) u = 0 := by
  have huu' : u 0 * u 0 + u 1 * u 1 + u 2 * u 2 = 1 := huu
  simp only [solveLocalRotvec]
  rw [if_pos hdeg, if_neg hdot]
  have hno2 : 0 < norm3 (if norm3 (cross3 u ![1, 0, 0]) < 1e-6 then cross3 u ![0, 1, 0]
      else cross3 u ![1, 0, 0]) := by
    split
    · rename_i hc
      apply Real.sqrt_pos.mpr
      have hcc : dot3 (cross3 u ![1, 0, 0]) (cross3 u ![1, 0, 0]) < 1e-12 := by
        have h1 : dot3 (cross3 u ![1, 0, 0]) (cross3 u ![1, 0, 0]) =
            norm3 (cross3 u ![1, 0, 0]) ^ 2 := (norm3_sq _).symm
        rw [h1]
        have h0 := norm3_nonneg (cross3 u ![1, 0, 0])
        nlinarith
      have he1 : dot3 (cross3 u ![1, 0, 0]) (cross3 u ![1, 0, 0]) =
          u 1 * u 1 + u 2 * u 2 := by
        simp only [dot3, cross3, Matrix.cons_val_zero, Matrix.cons_val_one, Matrix.head_cons,
          Matrix.cons_val_two, Matrix.tail_cons]
        ring
      have he2 : dot3 (cross3 u ![0, 1, 0]) (cross3 u ![0, 1, 0]) =
          u 0 * u 0 + u 2 * u 2 := by
        simp only [dot3, cross3, Matrix.cons_val_zero, Matrix.cons_val_one, Matrix.head_cons,
          Matrix.cons_val_two, Matrix.tail_cons]
        ring
      rw [he2]
      rw [he1] at hcc
      nlinarith
    · rename_i hc
      exact lt_of_lt_of_le (by norm_num) (le_of_not_lt hc)
  have hdo2 : dot3 (if norm3 (cross3 u ![1, 0, 0]) < 1e-6 then cross3 u ![0, 1, 0]
      else cross3 u ![1, 0, 0]) u = 0 := by
    split <;> exact dot3_cross_left _ _
  constructor
  · rw [norm3_smul, norm3_smul, abs_of_pos Real.pi_pos, abs_of_pos (by positivity)]
    field_simp
  · rw [dot3_smul_left, dot3_smul_left, hdo2]; ring

lemma clampR_zero_one : clampR (0 : ℝ) (-1) 1 = 0 := by
  unfold clampR
  rw [min_eq_left (by norm_num), max_eq_right (by norm_num)]

lemma cross3_e3_e1 : cross3 ![0, 0, 1] ![1, 0, 0] = ![0, 1, 0] := by
  funext i
  fin_cases i <;> simp [cross3]

lemma norm3_e3 : norm3 ![0, 0, 1] = 1 := by
  have h : dot3 (![0, 0, 1] : V3) ![0, 0, 1] = 1 := by norm_num [dot3]
  rw [norm3, h, Real.sqrt_one]

lemma norm3_e1 : norm3 ![1, 0, 0] = 1 := by
  have h : dot3 (![1, 0, 0] : V3) ![1, 0, 0] = 1 := by norm_num [dot3]
  rw [norm3, h, Real.sqrt_one]

lemma norm3_e2 : norm3 ![0, 1, 0] = 1 := by
  have h : dot3 (![0, 1, 0] : V3) ![0, 1, 0] = 1 := by norm_num [dot3]
  rw [norm3, h, Real.sqrt_one]

/-- The Rodrigues matrix of a quarter turn about the y axis. -/
lemma rodrigues_pi_half_y :
    rodrigues ![0, Real.pi / 2, 0] = !![0, 0, 1; 0, 1, 0; -1, 0, 0] := by
  have hd : dot3 (![0, Real.pi / 2, 0] : V3) ![0, Real.pi / 2, 0] = (Real.pi / 2) ^ 2 := by
    simp [dot3]; ring
  have hn : norm3 ![0, Real.pi / 2, 0] = Real.pi / 2 := by
    rw [norm3, hd, Real.sqrt_sq (by positivity)]
  simp only [rodrigues]
  rw [hn, if_neg (ne_of_gt (by positivity : (0 : ℝ) < Real.pi / 2))]
  have haxq : (1 / (Real.pi / 2)) • (![0, Real.pi / 2, 0] : V3) = ![0, 1, 0] := by
    funext i
    fin_cases i <;> simp <;> field_simp
  rw [haxq, Real.sin_pi_div_two, Real.cos_pi_div_two]
  ext i j
  fin_cases i <;> fin_cases j <;>
    simp [crossMat, Matrix.mul_apply, Fin.sum_univ_three, Matrix.add_apply,
      Matrix.smul_apply, Matrix.one_fin_three, Matrix.cons_val', Matrix.cons_val_zero,
      Matrix.cons_val_one, Matrix.head_cons, Matrix.cons_val_two, Matrix.tail_cons,
      Matrix.of_apply, Matrix.head_fin_const, Matrix.vecHead, Matrix.vecTail]

/-- `as_rotvec` of the quarter turn about the y axis. -/
lemma asRotvec_pi_half_y :
    asRotvec !![0, 0, 1; 0, 1, 0; -1, 0, 0] = ![0, Real.pi / 2, 0] := by
  simp only [asRotvec, Matrix.cons_val', Matrix.cons_val_zero, Matrix.cons_val_one,
    Matrix.head_cons, Matrix.cons_val_two, Matrix.tail_cons, Matrix.of_apply,
    Matrix.head_fin_const, Matrix.empty_val', Matrix.cons_val_fin_one]
  rw [show ((0 : ℝ) + 1 + 0 - 1) / 2 = 0 by norm_num, clampR_zero_one, Real.arccos_zero]
  rw [if_neg (ne_of_gt (by positivity : (0 : ℝ) < Real.pi / 2))]
  rw [Real.sin_pi_div_two, if_neg one_ne_zero]
  funext i
  fin_cases i <;> simp <;> ring

/-- The local solve on the (normalized, `+1e-8`-damped) single-bone
directions yields a quarter turn about the y axis. -/
lemma c1_solveLocal :
    solveLocalRotvec ((1 / (1 + 1e-8) : ℝ) • (![0, 0, 1] : V3))
      ((1 / (1 + 1e-8) : ℝ) • (![1, 0, 0] : V3)) = ![0, Real.pi / 2, 0] := by
  have hcr : cross3 ((1 / (1 + 1e-8) : ℝ) • (![0, 0, 1] : V3))
      ((1 / (1 + 1e-8) : ℝ) • (![1, 0, 0] : V3)) =
      ((1 / (1 + 1e-8) : ℝ) ^ 2) • (![0, 1, 0] : V3) := by
    rw [cross3_smul_left, cross3_smul_right, smul_smul, cross3_e3_e1,
      show (1 / (1 + 1e-8) : ℝ) * (1 / (1 + 1e-8)) = (1 / (1 + 1e-8)) ^ 2 by ring]
  have hnc : norm3 (((1 / (1 + 1e-8) : ℝ) ^ 2) • (![0, 1, 0] : V3)) =
      (1 / (1 + 1e-8) : ℝ) ^ 2 := by
    rw [norm3_smul, norm3_e2, abs_of_pos (by positivity)]; ring
  have hndeg : ¬ ((1 / (1 + 1e-8) : ℝ) ^ 2 < 1e-6) := by norm_num
  have hdot0 : dot3 ((1 / (1 + 1e-8) : ℝ) • (![0, 0, 1] : V3))
      ((1 / (1 + 1e-8) : ℝ) • (![1, 0, 0] : V3)) = 0 := by
    rw [dot3_smul_smul, show dot3 (![0, 0, 1] : V3) ![1, 0, 0] = 0 by norm_num [dot3]]
    ring
  simp only [solveLocalRotvec]
  rw [hcr, hnc, if_neg hndeg, hdot0, clampR_zero_one, Real.arccos_zero, smul_smul, smul_smul,
    mul_assoc,
    show (1 / ((1 / (1 + 1e-8) : ℝ) ^ 2)) * ((1 / (1 + 1e-8) : ℝ) ^ 2) = 1 by norm_num,
    mul_one]
  funext i
  fin_cases i <;> simp

/-- The full pose solve on the single-bone inputs: exactly one rotation
entry, a quarter turn about the y axis on the neck bone. -/
lemma c1_rotations :
    compute_pose ["root", "neck01"] [1, 1] c1src c1tgt =
      [("neck01", ![0, Real.pi / 2, 0])] := by
  have hnone_src : ∀ s : String, s ≠ "neck" → s ≠ "head" → alook c1src s = none := by
    intro s h1 h2
    simp only [c1src, alook]
    rw [if_neg (fun h => h1 h.symm), if_neg (fun h => h2 h.symm)]
  have hroot : solve_root_heading c1src c1tgt = [] := by
    rw [solve_root_heading, hnone_src "hip_l" (by decide) (by decide)]
  simp only [compute_pose, chains, List.foldl_cons, List.foldl_nil, hroot]
  rw [solveChainStep_skip _ _ _ _ _ ⟨"knee_r", "ankle_r", "lowerleg01.R", some "upperleg01.R"⟩
    (Or.inl (hnone_src "knee_r" (by decide) (by decide)))]
  rw [solveChainStep_skip _ _ _ _ _ ⟨"hip_r", "knee_r", "upperleg01.R", none⟩
    (Or.inl (hnone_src "hip_r" (by decide) (by decide)))]
  rw [solveChainStep_skip _ _ _ _ _ ⟨"knee_l", "ankle_l", "lowerleg01.L", some "upperleg01.L"⟩
    (Or.inl (hnone_src "knee_l" (by decide) (by decide)))]
  rw [solveChainStep_skip _ _ _ _ _ ⟨"hip_l", "knee_l", "upperleg01.L", none⟩
    (Or.inl (hnone_src "hip_l" (by decide) (by decide)))]
  rw [solveChainStep_skip _ _ _ _ _ ⟨"elbow_r", "wrist_r", "lowerarm01.R", some "upperarm01.R"⟩
    (Or.inl (hnone_src "elbow_r" (by decide) (by decide)))]
  rw [solveChainStep_skip _ _ _ _ _ ⟨"shoulder_r", "elbow_r", "upperarm01.R", none⟩
    (Or.inl (hnone_src "shoulder_r" (by decide) (by decide)))]
  rw [solveChainStep_skip _ _ _ _ _ ⟨"elbow_l", "wrist_l", "lowerarm01.L", some "upperarm01.L"⟩
    (Or.inl (hnone_src "elbow_l" (by decide) (by decide)))]
  rw [solveChainStep_skip _ _ _ _ _ ⟨"shoulder_l", "elbow_l", "upperarm01.L", none⟩
    (Or.inl (hnone_src "shoulder_l" (by decide) (by decide)))]
  have ha1 : alook c1src "neck" = some ![0, 0, 0] := by
    simp [c1src, alook]
  have ha2 : alook c1src "head" = some ![0, 0, 1] := by
    simp [c1src, alook]
  have ha3 : alook c1tgt "neck" = some ![0, 0, 0] := by
    simp [c1tgt, alook]
  have ha4 : alook c1tgt "head" = some ![1, 0, 0] := by
    simp [c1tgt, alook]
  simp only [solveChainStep, ha1, ha2, ha3, ha4]
  have hsub3 : (fun i => (![0, 0, 1] : V3) i - (![0, 0, 0] : V3) i) = ![0, 0, 1] := by
    funext i; fin_cases i <;> simp
  have hsub1 : (fun i => (![1, 0, 0] : V3) i - (![0, 0, 0] : V3) i) = ![1, 0, 0] := by
    funext i; fin_cases i <;> simp
  rw [hsub3, hsub1]
  rw [show normalize8 ![0, 0, 1] = (1 / (1 + 1e-8) : ℝ) • (![0, 0, 1] : V3) by
    rw [normalize8, norm3_e3]]
  rw [show normalize8 ![1, 0, 0] = (1 / (1 + 1e-8) : ℝ) • (![1, 0, 0] : V3) by
    rw [normalize8, norm3_e1]]
  rw [Matrix.one_mulVec, c1_solveLocal, rodrigues_pi_half_y]
  rw [if_pos (show "neck01" ∈ ["root", "neck01"] by simp)]
  rw [show List.indexOf "neck01" ["root", "neck01"] = 1 by decide]
  rw [show List.getD [(1 : M3), 1] 1 1 = 1 by rfl]
  rw [Matrix.transpose_one, Matrix.one_mul, Matrix.mul_one, asRotvec_pi_half_y]
  rw [show applyHeuristics "neck01" ![0, Real.pi / 2, 0] = ![0, Real.pi / 2, 0] by
    rw [applyHeuristics, if_neg (by decide)]]
  simp

/-- C1: (i) for unit directions whose cross product is not near zero, the
local delta rotation (axis = normalized cross product, angle = clamped
arccos of the dot product) maps the pre-rotated rest direction exactly onto
the target direction, and the cross-product axis is perpendicular to both
directions; (ii) the aligned degenerate case yields the zero rotation
vector and the identity matrix; (iii) the antiparallel case yields a 180°
rotation (rotation vector of length π) about an axis orthogonal to the
direction; (iv) for a single-bone chain with source direction `(0,0,1)`,
target direction `(1,0,0)` and identity rest frames, the solved rotation
applied to the source direction reproduces the target direction within
`1e-6` and the rotation axis is perpendicular to both. -/
theorem pose_solver_rotation_spec :
    (∀ u t : V3, dot3 u u = 1 → dot3 t t = 1 → ¬ norm3 (cross3 u t) < 1e-6 →
      rodrigues (solveLocalRotvec u t) *ᵥ u = t ∧
      dot3 (cross3 u t) u = 0 ∧ dot3 (cross3 u t) t = 0) ∧
    (∀ u t : V3, norm3 (cross3 u t) < 1e-6 → 0 < dot3 u t →
      solveLocalRotvec u t = 0 ∧ rodrigues (solveLocalRotvec u t) = 1) ∧
    (∀ u t : V3, dot3 u u = 1 → norm3 (cross3 u t) < 1e-6 → ¬ 0 < dot3 u t →
      norm3 (solveLocalRotvec u t) = Real.pi ∧ dot3 (solveLocalRotvec u t) u = 0) ∧
    (∃ g, alook (compute_pose ["root", "neck01"] [1, 1] c1src c1tgt) "neck01" = some g ∧
      norm3 (fun i => (rodrigues g *ᵥ ![0, 0, 1]) i - ![1, 0, 0] i) ≤ 1e-6 ∧
      dot3 g ![0, 0, 1] = 0 ∧ dot3 g ![1, 0, 0] = 0) := by
  refine ⟨?_, ?_, ?_, ?_⟩
  · intro u t huu htt hnd
    exact ⟨solveLocalRotvec_maps u t huu htt hnd, dot3_cross_left u t, dot3_cross_right u t⟩
  · intro u t hdeg hdot
    exact solveLocalRotvec_aligned u t hdeg hdot
  · intro u t huu hdeg hdot
    exact solveLocalRotvec_antiparallel u t huu hdeg hdot
  · refine ⟨![0, Real.pi / 2, 0], ?_, ?_, ?_, ?_⟩
    · rw [c1_rotations]; simp [alook]
    · rw [rodrigues_pi_half_y]
      have happ : (!![0, 0, 1; 0, 1, 0; -1, 0, 0] : M3) *ᵥ ![0, 0, 1] = ![1, 0, 0] := by
        funext i
        fin_cases i <;>
          simp [Matrix.mulVec, Matrix.dotProduct, Fin.sum_univ_three]
      rw [happ]
      rw [show (fun i => (![1, 0, 0] : V3) i - ![1, 0, 0] i) = (0 : V3) by funext i; simp]
      rw [norm3_zero]
      norm_num
    · norm_num [dot3]
    · norm_num [dot3]

/-- Witness for `pose_solver_rotation_spec`: the non-degenerate part
applied at the exactly-unit directions `(0,0,1)` and `(1,0,0)`. -/
theorem pose_solver_rotation_spec_witness :
    rodrigues (solveLocalRotvec ![0, 0, 1] ![1, 0, 0]) *ᵥ ![0, 0, 1] = ![1, 0, 0] ∧
    dot3 (cross3 ![0, 0, 1] ![1, 0, 0]) ![0, 0, 1] = 0 ∧
    dot3 (cross3 ![0, 0, 1] ![1, 0, 0]) ![1, 0, 0] = 0 :=
  pose_solver_rotation_spec.1 ![0, 0, 1] ![1, 0, 0]
    (by norm_num [dot3]) (by norm_num [dot3])
    (by rw [cross3_e3_e1, norm3_e2]; norm_num)

lemma ortho_mul_comm {M : M3} (h : Ortho M) : M * Mᵀ = 1 :=
  Matrix.mul_eq_one_comm.mp h

lemma ortho_det {M : M3} (h : Ortho M) : M.det = 1 ∨ M.det = -1 := by
  have h1 : M.det * M.det = 1 := by
    have := congrArg Matrix.det h
    rwa [Matrix.det_mul, Matrix.det_transpose, Matrix.det_one] at this
  exact mul_self_eq_one_iff.mp h1

lemma negLastRow_eq (M : M3) : negLastRow M = Matrix.diagonal ![1, 1, -1] * M := by
  ext i j
  fin_cases i <;>
    simp [negLastRow, Matrix.updateRow_apply, Matrix.diagonal_mul]

lemma ortho_negLastRow {M : M3} (h : Ortho M) : Ortho (negLastRow M) := by
  rw [Ortho, negLastRow_eq, Matrix.transpose_mul, Matrix.diagonal_transpose]
  have hDD : (Matrix.diagonal ![1, 1, -1] : M3) * Matrix.diagonal ![1, 1, -1] = 1 := by
    ext i j
    fin_cases i <;> fin_cases j <;>
      simp [Matrix.mul_apply, Matrix.diagonal_apply, Fin.sum_univ_three, Matrix.one_apply]
  calc Mᵀ * Matrix.diagonal ![1, 1, -1] * (Matrix.diagonal ![1, 1, -1] * M)
      = Mᵀ * (Matrix.diagonal ![1, 1, -1] * Matrix.diagonal ![1, 1, -1]) * M := by
        noncomm_ring
    _ = Mᵀ * M := by rw [hDD]; noncomm_ring
    _ = 1 := h

lemma det_negLastRow (M : M3) : (negLastRow M).det = -M.det := by
  rw [negLastRow_eq, Matrix.det_mul, Matrix.det_diagonal, Fin.prod_univ_three]
  norm_num

/-- The SVD-based rotation solve, after the reflection correction, always
returns a proper rotation when the SVD factors are orthogonal. -/
lemma solveCorrectedRotation_isRot (svdF : M3 → M3 × V3 × M3)
    (hsvd : ∀ M, Ortho (svdF M).1 ∧ Ortho (svdF M).2.2) (H : M3) :
    isRot (solveCorrectedRotation svdF H) := by
  obtain ⟨hU, hV⟩ := hsvd H
  have horth : ∀ (A B : M3), Ortho A → Ortho B → Ortho (Bᵀ * Aᵀ) := by
    intro A B hA hB
    rw [Ortho, Matrix.transpose_mul, Matrix.transpose_transpose]
    calc A * B * (Bᵀ * Aᵀ) = A * (B * Bᵀ) * Aᵀ := by noncomm_ring
      _ = A * Aᵀ := by rw [ortho_mul_comm hB]; noncomm_ring
      _ = 1 := ortho_mul_comm hA
  have hR : Ortho ((svdF H).2.2ᵀ * (svdF H).1ᵀ) := horth _ _ hU hV
  have hdetR : ((svdF H).2.2ᵀ * (svdF H).1ᵀ).det =
      (svdF H).2.2.det * (svdF H).1.det := by
    rw [Matrix.det_mul, Matrix.det_transpose, Matrix.det_transpose]
  simp only [solveCorrectedRotation]
  split
  · rename_i hneg
    have hR' : Ortho ((negLastRow (svdF H).2.2)ᵀ * (svdF H).1ᵀ) :=
      horth _ _ hU (ortho_negLastRow hV)
    refine ⟨hR', ?_⟩
    have hdet' : ((negLastRow (svdF H).2.2)ᵀ * (svdF H).1ᵀ).det =
        -(((svdF H).2.2ᵀ * (svdF H).1ᵀ).det) := by
      rw [Matrix.det_mul, Matrix.det_transpose, det_negLastRow, hdetR,
        Matrix.det_transpose]
      ring
    rcases ortho_det hR with h1 | h1
    · rw [h1] at hneg; norm_num at hneg
    · rw [hdet', h1]; norm_num
  · rename_i hpos
    refine ⟨hR, ?_⟩
    rcases ortho_det hR with h1 | h1
    · exact h1
    · rw [h1] at hpos; norm_num at hpos

/-- The damped per-iteration rotation is always a proper rotation. -/
lemma scaledRot_isRot (rs : ℝ) (R : M3) (h : isRot R) : isRot (scaledRot rs R) := by
  rw [scaledRot]
  split
  · exact rodrigues_isRot _
  · exact h

/-- Iteration bound and early-exit characterization of the ICP loop. -/
lemma icpLoop_bounds (svdF : M3 → M3 × V3 × M3) (tgtC : List V3) (rs : ℝ) :
    ∀ (fuel : ℕ) (cur : List V3) (Rtot : M3) (it : ℕ),
      (icpLoop svdF tgtC rs fuel cur Rtot it).2.2.1 ≤ it + fuel ∧
      ((icpLoop svdF tgtC rs fuel cur Rtot it).2.2.1 < it + fuel →
        ∃ m, (icpLoop svdF tgtC rs fuel cur Rtot it).2.2.2 = some m) ∧
      (∀ m, (icpLoop svdF tgtC rs fuel cur Rtot it).2.2.2 = some m → m < 0.001) := by
  intro fuel
  induction fuel with
  | zero =>
      intro cur Rtot it
      refine ⟨by simp [icpLoop], ?_, ?_⟩
      · intro h; simp [icpLoop] at h
      · intro m h; simp [icpLoop] at h
  | succ n ih =>
      intro cur Rtot it
      simp only [icpLoop]
      split
      · rename_i hm
        refine ⟨?_, fun _ => ⟨_, rfl⟩, ?_⟩
        · show it + 1 ≤ it + (n + 1)
          omega
        · intro m h
          have h2 : some (meanR ((cur.map (nearestNeighbor tgtC)).map Prod.snd)) =
              some m := h
          exact Option.some.inj h2 ▸ hm
      · obtain ⟨ih1, ih2, ih3⟩ := ih (cur.map
          (fun p => scaledRot rs (solveCorrectedRotation svdF
            (covH cur ((cur.map (nearestNeighbor tgtC)).map Prod.fst))) *ᵥ p))
          (scaledRot rs (solveCorrectedRotation svdF
            (covH cur ((cur.map (nearestNeighbor tgtC)).map Prod.fst))) * Rtot) (it + 1)
        refine ⟨by omega, fun h => ih2 (by omega), ih3⟩

/-- The accumulated rotation of the ICP loop stays a proper rotation. -/
lemma icpLoop_rotation (svdF : M3 → M3 × V3 × M3) (tgtC : List V3) (rs : ℝ)
    (hstep : ∀ H, isRot (scaledRot rs (solveCorrectedRotation svdF H))) :
    ∀ (fuel : ℕ) (cur : List V3) (Rtot : M3), isRot Rtot →
      isRot (icpLoop svdF tgtC rs fuel cur Rtot 0).2.1 := by
  have main : ∀ (fuel : ℕ) (cur : List V3) (Rtot : M3) (it : ℕ), isRot Rtot →
      isRot (icpLoop svdF tgtC rs fuel cur Rtot it).2.1 := by
    intro fuel
    induction fuel with
    | zero => intro cur Rtot it h; simpa [icpLoop] using h
    | succ n ih =>
        intro cur Rtot it h
        simp only [icpLoop]
        split
        · exact isRot_mul (hstep _) h
        · exact ih _ _ _ (isRot_mul (hstep _) h)
  intro fuel cur Rtot h
  exact main fuel cur Rtot 0 h

/-- C4: for non-empty point sets, the ICP aligner runs at most 50
iterations; an early exit can only happen with the mean nearest-neighbour
distance below the 0.001 threshold; the per-iteration rotation after the
reflection correction is a proper rotation, the accumulated rotation it
returns is a proper rotation, and the returned translation is the zero
vector. -/
theorem icp_align_spec (svdF : M3 → M3 × V3 × M3) (source target : List V3)
    (hs : source ≠ []) (ht : target ≠ [])
    (hsvd : ∀ M, Ortho (svdF M).1 ∧ Ortho (svdF M).2.2) :
    (icp_align svdF source target 50 0.3).iters ≤ 50 ∧
    ((icp_align svdF source target 50 0.3).iters < 50 →
      ∃ m, (icp_align svdF source target 50 0.3).lastMean = some m) ∧
    (∀ m, (icp_align svdF source target 50 0.3).lastMean = some m → m < 0.001) ∧
    isRot (icp_align svdF source target 50 0.3).rotation ∧
    (icp_align svdF source target 50 0.3).translation = 0 ∧
    (∀ H, isRot (solveCorrectedRotation svdF H)) := by
  have hb := icpLoop_bounds svdF
    (target.map (fun p => fun i => p i - centroid3 target i)) 0.3 50
    (source.map (fun p => fun i => p i - centroid3 source i)) 1 0
  have hstep : ∀ H, isRot (scaledRot 0.3 (solveCorrectedRotation svdF H)) :=
    fun H => scaledRot_isRot 0.3 _ (solveCorrectedRotation_isRot svdF hsvd H)
  have hrot := icpLoop_rotation svdF
    (target.map (fun p => fun i => p i - centroid3 target i)) 0.3 hstep 50
    (source.map (fun p => fun i => p i - centroid3 source i)) 1 isRot_one
  refine ⟨?_, ?_, ?_, ?_, rfl, fun H => solveCorrectedRotation_isRot svdF hsvd H⟩
  · simpa [icp_align] using hb.1
  · intro h
    exact hb.2.1 (by simpa [icp_align] using h)
  · intro m h
    exact hb.2.2 m (by simpa [icp_align] using h)
  · simpa [icp_align] using hrot

/-- Witness for `icp_align_spec`: an SVD stub returning identity factors
(which are orthogonal) on singleton point sets. -/
theorem icp_align_spec_witness :
    (icp_align (fun _ => (1, 0, 1)) [fun _ => 0] [fun _ => 0] 50 0.3).iters ≤ 50 ∧
    ((icp_align (fun _ => (1, 0, 1)) [fun _ => 0] [fun _ => 0] 50 0.3).iters < 50 →
      ∃ m, (icp_align (fun _ => (1, 0, 1)) [fun _ => 0] [fun _ => 0] 50 0.3).lastMean =
        some m) ∧
    (∀ m, (icp_align (fun _ => (1, 0, 1)) [fun _ => 0] [fun _ => 0] 50 0.3).lastMean =
      some m → m < 0.001) ∧
    isRot (icp_align (fun _ => (1, 0, 1)) [fun _ => 0] [fun _ => 0] 50 0.3).rotation ∧
    (icp_align (fun _ => (1, 0, 1)) [fun _ => 0] [fun _ => 0] 50 0.3).translation = 0 ∧
    (∀ H, isRot (solveCorrectedRotation (fun _ => (1, 0, 1)) H)) :=
  icp_align_spec (fun _ => (1, 0, 1)) [fun _ => 0] [fun _ => 0]
    (by simp) (by simp)
    (fun _ => ⟨by rw [Ortho, Matrix.transpose_one, Matrix.one_mul],
      by rw [Ortho, Matrix.transpose_one, Matrix.one_mul]⟩)

lemma perim2_nonneg (loop : List V3) : 0 ≤ perim2 loop := by
  apply List.sum_nonneg
  intro x hx
  simp only [List.mem_map] at hx
  obtain ⟨pq, _, rfl⟩ := hx
  exact Real.sqrt_nonneg _

/-- Scanning from a valid current best: the result is the best valid loop
among the current one and the remaining loops. -/
lemma betterLoop_fold_from (ls : List (List V3)) :
    ∀ (l₀ : List V3), 3 ≤ l₀.length →
      ∃ lstar, (lstar = l₀ ∨ lstar ∈ ls) ∧ 3 ≤ lstar.length ∧
        ls.foldl betterLoop (perim2 l₀, some (centerDist l₀)) =
          (perim2 lstar, some (centerDist lstar)) ∧
        centerDist lstar ≤ centerDist l₀ ∧
        (∀ l' ∈ ls, 3 ≤ l'.length → centerDist lstar ≤ centerDist l') := by
  induction ls with
  | nil =>
      intro l₀ h
      exact ⟨l₀, Or.inl rfl, h, rfl, le_refl _, by simp⟩
  | cons l t ih =>
      intro l₀ h₀
      rw [List.foldl_cons]
      by_cases hv : l.length < 3
      · rw [show betterLoop (perim2 l₀, some (centerDist l₀)) l =
            (perim2 l₀, some (centerDist l₀)) by simp [betterLoop, hv]]
        obtain ⟨ls', hmem, hlen, heq, hle, hall⟩ := ih l₀ h₀
        refine ⟨ls', ?_, hlen, heq, hle, ?_⟩
        · rcases hmem with h | h
          · exact Or.inl h
          · exact Or.inr (List.mem_cons_of_mem l h)
        · intro l' hl' h3'
          rcases List.mem_cons.mp hl' with rfl | hm
          · omega
          · exact hall l' hm h3'
      · have hv3 : 3 ≤ l.length := by omega
        by_cases hlt : centerDist l < centerDist l₀
        · rw [show betterLoop (perim2 l₀, some (centerDist l₀)) l =
              (perim2 l, some (centerDist l)) by simp [betterLoop, hv, hlt]]
          obtain ⟨ls', hmem, hlen, heq, hle, hall⟩ := ih l hv3
          refine ⟨ls', ?_, hlen, heq, le_trans hle (le_of_lt hlt), ?_⟩
          · rcases hmem with rfl | h
            · exact Or.inr (List.mem_cons_self _ _)
            · exact Or.inr (List.mem_cons_of_mem l h)
          · intro l' hl' h3'
            rcases List.mem_cons.mp hl' with rfl | hm
            · exact hle
            · exact hall l' hm h3'
        · rw [show betterLoop (perim2 l₀, some (centerDist l₀)) l =
              (perim2 l₀, some (centerDist l₀)) by simp [betterLoop, hv, hlt]]
          obtain ⟨ls', hmem, hlen, heq, hle, hall⟩ := ih l₀ h₀
          refine ⟨ls', ?_, hlen, heq, hle, ?_⟩
          · rcases hmem with h | h
            · exact Or.inl h
            · exact Or.inr (List.mem_cons_of_mem l h)
          · intro l' hl' h3'
            rcases List.mem_cons.mp hl' with rfl | hm
            · exact le_trans hle (le_of_not_lt hlt)
            · exact hall l' hm h3'

/-- Scanning from the initial state: either every loop is too short and
the scan returns `(0, none)`, or the result is the perimeter of a valid
loop whose centroid distance is minimal among all valid loops. -/
lemma betterLoop_fold (ls : List (List V3)) :
    ((∀ l ∈ ls, l.length < 3) ∧ ls.foldl betterLoop (0, none) = (0, none)) ∨
    (∃ lstar ∈ ls, 3 ≤ lstar.length ∧
      ls.foldl betterLoop (0, none) = (perim2 lstar, some (centerDist lstar)) ∧
      (∀ l' ∈ ls, 3 ≤ l'.length → centerDist lstar ≤ centerDist l')) := by
  induction ls with
  | nil => exact Or.inl ⟨by simp, rfl⟩
  | cons l t ih =>
      rw [List.foldl_cons]
      by_cases hv : l.length < 3
      · rw [show betterLoop (0, none) l = (0, none) by simp [betterLoop, hv]]
        rcases ih with ⟨hall, heq⟩ | ⟨ls', hmem, hlen, heq, hall⟩
        · refine Or.inl ⟨?_, heq⟩
          intro l' hl'
          rcases List.mem_cons.mp hl' with rfl | hm
          · exact hv
          · exact hall l' hm
        · refine Or.inr ⟨ls', List.mem_cons_of_mem l hmem, hlen, heq, ?_⟩
          intro l' hl' h3'
          rcases List.mem_cons.mp hl' with rfl | hm
          · omega
          · exact hall l' hm h3'
      · have hv3 : 3 ≤ l.length := by omega
        rw [show betterLoop (0, none) l = (perim2 l, some (centerDist l)) by
          simp [betterLoop, hv]]
        obtain ⟨ls', hmem, hlen, heq, hle, hall⟩ := betterLoop_fold_from t l hv3
        refine Or.inr ⟨ls', ?_, hlen, heq, ?_⟩
        · rcases hmem with rfl | h
          · exact List.mem_cons_self _ _
          · exact List.mem_cons_of_mem l h
        · intro l' hl' h3'
          rcases List.mem_cons.mp hl' with rfl | hm
          · exact hle
          · exact hall l' hm h3'

/-- C10: the circumference measurement is total and non-negative: it
returns 0 when the cross-section is `None`, yields no loops, or yields
only loops with fewer than 3 points; otherwise it returns the perimeter
(a sum of Euclidean edge lengths) of a valid loop whose centroid is
closest to the vertical axis among all valid loops. -/
theorem measure_circumference_spec :
    (∀ path, 0 ≤ measure_circumference path) ∧
    measure_circumference none = 0 ∧
    (∀ loops, (∀ l ∈ loops, l.length < 3) → measure_circumference (some loops) = 0) ∧
    (∀ loops l₀, l₀ ∈ loops → 3 ≤ l₀.length →
      ∃ l ∈ loops, 3 ≤ l.length ∧ measure_circumference (some loops) = perim2 l ∧
        ∀ l' ∈ loops, 3 ≤ l'.length → centerDist l ≤ centerDist l') := by
  refine ⟨?_, rfl, ?_, ?_⟩
  · intro path
    rcases path with _ | loops
    · simp [measure_circumference]
    · simp only [measure_circumference]
      rcases betterLoop_fold loops with ⟨_, heq⟩ | ⟨ls', _, _, heq, _⟩
      · rw [heq]
      · rw [heq]
        exact perim2_nonneg ls'
  · intro loops hall
    simp only [measure_circumference]
    rcases betterLoop_fold loops with ⟨_, heq⟩ | ⟨ls', hmem, hlen, _, _⟩
    · rw [heq]
    · have := hall ls' hmem
      omega
  · intro loops l₀ hmem h₀
    simp only [measure_circumference]
    rcases betterLoop_fold loops with ⟨hall, _⟩ | ⟨ls', hmem', hlen, heq, hall⟩
    · have := hall l₀ hmem
      omega
    · exact ⟨ls', hmem', hlen, by rw [heq], hall⟩

/-- Witness for `measure_circumference_spec`: the minimal-loop part applied
to a single degenerate 3-point loop at the origin. -/
theorem measure_circumference_spec_witness :
    ∃ l ∈ [[(fun _ => 0 : V3), fun _ => 0, fun _ => 0]], 3 ≤ l.length ∧
      measure_circumference (some [[(fun _ => 0 : V3), fun _ => 0, fun _ => 0]]) =
        perim2 l ∧
      ∀ l' ∈ [[(fun _ => 0 : V3), fun _ => 0, fun _ => 0]], 3 ≤ l'.length →
        centerDist l ≤ centerDist l' :=
  measure_circumference_spec.2.2.2 [[(fun _ => 0 : V3), fun _ => 0, fun _ => 0]]
    [(fun _ => 0 : V3), fun _ => 0, fun _ => 0] (by simp) (by norm_num)

end Nove
